import Mathlib

/-
Verification development for the AE validation pipeline
(validators/validation_pipeline.py and validators/python_logical_validations.py).

The XML document model is a shallow embedding of the lxml element tree as
used by the validators: an element has a tag, an attribute list, the text
that precedes its first child (lxml `.text`, with the empty string standing
for `None`), and an ordered list of children.  XPath queries used by the
rules (`//TAG`, `.//TAG`, child steps, attribute access, `ancestor::`,
`parent::*`) are modelled by explicit traversals that enumerate nodes in
document order together with their positions (lists of child indices), so
that `lxml`'s `getpath` can be computed without relying on node identity.
-/

set_option maxHeartbeats 1000000

namespace AEV

/-- An XML element as seen through lxml: tag, attributes, text before the
first child (empty string models a `None` text), ordered children. -/
inductive Elem : Type where
  | node (tag : String) (attrs : List (String × String)) (text : String)
         (children : List Elem)

def Elem.tag : Elem → String
  | .node t _ _ _ => t

def Elem.attrs : Elem → List (String × String)
  | .node _ a _ _ => a

def Elem.text : Elem → String
  | .node _ _ x _ => x

def Elem.children : Elem → List Elem
  | .node _ _ _ cs => cs

/-- Attribute lookup, i.e. `elem.get(key)`; XML attributes are unique per
element, so first match is the attribute. -/
def Elem.attr? (e : Elem) (k : String) : Option String :=
  (e.attrs.filter (fun q => q.1 = k)).head?.map (fun q => q.2)

/-- Attribute lookup with default, i.e. `elem.get(key, default)`. -/
def Elem.attrD (e : Elem) (k d : String) : String :=
  (e.attr? k).getD d

/-- Position of a node inside a tree: the list of child indices from the
root down to the node. -/
abbrev Pos := List Nat

mutual

/-- All nodes of the subtree rooted at `e` in document order (the node
itself first), each with its position relative to `e`.  This models the
`descendant-or-self` axis. -/
def Elem.allNodes : Elem → List (Pos × Elem)
  | .node t a x cs => ([], Elem.node t a x cs) :: Elem.allNodesFrom 0 cs

/-- Nodes of a forest of subtrees, with positions prefixed by the child
index starting at `i`. -/
def Elem.allNodesFrom : Nat → List Elem → List (Pos × Elem)
  | _, [] => []
  | i, c :: cs =>
      (Elem.allNodes c).map (fun q => (i :: q.1, q.2)) ++ Elem.allNodesFrom (i + 1) cs

end

/-- Proper descendants of `e` in document order with positions relative to
`e` (the `descendant` axis, `.//`). -/
def Elem.descendantsWithPos : Elem → List (Pos × Elem)
  | .node _ _ _ cs => Elem.allNodesFrom 0 cs

/-- Proper descendants of `e` in document order (the `descendant` axis). -/
def Elem.descendants (e : Elem) : List Elem :=
  e.descendantsWithPos.map (fun q => q.2)

/-- `//TAG` evaluated from the document root: all elements with the given
tag, in document order, with their absolute positions.  (Since the root
element is a child of the document node, `//TAG` includes the root element
itself when its tag matches.) -/
def findAll (root : Elem) (t : String) : List (Pos × Elem) :=
  root.allNodes.filter (fun q => q.2.tag = t)

/-- Direct children with a given tag (a child step such as `SHORT-NAME`). -/
def Elem.childrenTagged (e : Elem) (t : String) : List Elem :=
  e.children.filter (fun c => c.tag = t)

/-- `elem.xpath("SHORT-NAME/@name")[0]` guarded by a non-emptiness check:
the first `name` attribute among the `SHORT-NAME` children. -/
def firstShortName (e : Elem) : Option String :=
  ((e.childrenTagged "SHORT-NAME").filterMap (fun c => c.attr? "name")).head?

/-- `elem.xpath(".//SHORT-NAME/@name")[0]`: the first `name` attribute among
descendant `SHORT-NAME` elements. -/
def firstDescShortName (e : Elem) : Option String :=
  ((e.descendants.filter (fun d => d.tag = "SHORT-NAME")).filterMap
    (fun c => c.attr? "name")).head?

/-- The child of `e` at index `i`, when it exists. -/
def Elem.child? (e : Elem) (i : Nat) : Option Elem :=
  e.children[i]?

/-- The subtree of `e` at position `p`, when the position is valid. -/
def subtreeAt : Elem → Pos → Option Elem
  | e, [] => some e
  | e, i :: p => (e.child? i).bind (fun c => subtreeAt c p)

/-- The chain of proper ancestors of the node at position `p`, from the
root down (document order of the `ancestor::` axis). -/
def ancestorChain : Elem → Pos → List Elem
  | _, [] => []
  | e, i :: p =>
      match e.child? i with
      | none => []
      | some c => e :: ancestorChain c p

/-- `node.xpath("ancestor::TAG")[0]`: the outermost ancestor with the given
tag (lxml returns the ancestor axis in document order, outermost first). -/
def firstAncestorTagged (root : Elem) (p : Pos) (t : String) : Option Elem :=
  ((ancestorChain root p).filter (fun a => a.tag = t)).head?

/-- One-based index of the child at index `i` among the same-tag siblings
that precede it, used for the positional predicate of `getpath`. -/
def tagIndexIn (cs : List Elem) (i : Nat) (t : String) : Nat :=
  ((cs.take i).filter (fun c => c.tag = t)).length + 1

/-- The path steps of lxml's `tree.getpath` below a given element: a `/tag`
step per level, with a `[k]` positional predicate exactly when the element
has more than one same-tag sibling. -/
def getpathFrom : Elem → Pos → String
  | _, [] => ""
  | e, i :: p =>
      match e.child? i with
      | none => ""
      | some c =>
        let same := (e.children.filter (fun d => d.tag = c.tag)).length
        let seg :=
          if 1 < same then c.tag ++ "[" ++ toString (tagIndexIn e.children i c.tag) ++ "]"
          else c.tag
        "/" ++ seg ++ getpathFrom c p

/-- lxml's `tree.getpath(node)` for the node at position `p` (the root
element is unique, so it never carries a positional predicate). -/
def getpath (root : Elem) (p : Pos) : String :=
  "/" ++ root.tag ++ getpathFrom root p

/-- Descendants of a positioned node, with absolute positions. -/
def descWithPos (q : Pos × Elem) : List (Pos × Elem) :=
  q.2.descendantsWithPos.map (fun r => (q.1 ++ r.1, r.2))

/-- Children of a positioned node, with absolute positions. -/
def childrenWithPos (q : Pos × Elem) : List (Pos × Elem) :=
  q.2.children.enum.map (fun r => (q.1 ++ [r.1], r.2))

/-! String utilities modelling the Python string operations used by the
validators (on ASCII data, which is what the rules operate on). -/

/-- Drop matching characters from the end of a list. -/
def rstrip (p : Char → Bool) (l : List Char) : List Char :=
  (l.reverse.dropWhile p).reverse

/-- Drop matching characters from both ends of a list. -/
def stripBoth (p : Char → Bool) (l : List Char) : List Char :=
  rstrip p (l.dropWhile p)

/-- Python `str.strip()`: remove leading and trailing whitespace. -/
def pyStrip (s : String) : String :=
  ⟨stripBoth Char.isWhitespace s.data⟩

/-- Python `str.strip("/")`: remove leading and trailing slashes. -/
def stripSlashes (s : String) : String :=
  ⟨stripBoth (fun c => c == '/') s.data⟩

/-- Python `str.split("/")` on the character list: split at every slash,
keeping empty pieces, never returning an empty list. -/
def splitSlash : List Char → List (List Char)
  | [] => [[]]
  | c :: rest =>
      if c = '/' then [] :: splitSlash rest
      else
        match splitSlash rest with
        | [] => [[c]]
        | s :: ss => (c :: s) :: ss

/-- `dest.split("/")[-1]`: the last slash-separated segment of a string
(no normalization). -/
def lastSeg (s : String) : String :=
  match (splitSlash s.data).getLast? with
  | some l => ⟨l⟩
  | none => ""

/-- Continuation of a digit run: digits with single interior underscores,
never ending in an underscore. -/
def intBodyTail : List Char → Bool
  | [] => true
  | '_' :: rest =>
      match rest with
      | [] => false
      | d :: rest2 => d.isDigit && intBodyTail rest2
  | c :: rest => c.isDigit && intBodyTail rest

/-- Digits-and-underscores body accepted by CPython `int()` after the
optional sign: nonempty, starts and ends with a digit, single underscores
only between digits. -/
def intBodyOk : List Char → Bool
  | [] => false
  | c :: rest => c.isDigit && intBodyTail rest

/-- Numeric value of a digit list. -/
def digitsVal (l : List Char) : Nat :=
  l.foldl (fun a c => a * 10 + (c.toNat - 48)) 0

/-- CPython `int(s)` on ASCII input: optional surrounding whitespace,
optional sign, digits with single interior underscores; `none` models
`ValueError`. -/
def pythonInt (s : String) : Option Int :=
  let t := (pyStrip s).data
  match t with
  | '+' :: rest =>
      if intBodyOk rest then some (digitsVal (rest.filter (fun c => c ≠ '_')) : Nat)
      else none
  | '-' :: rest =>
      if intBodyOk rest then some (-(digitsVal (rest.filter (fun c => c ≠ '_')) : Nat))
      else none
  | _ =>
      if intBodyOk t then some (digitsVal (t.filter (fun c => c ≠ '_')) : Nat)
      else none

/-- Python `needle in haystack` on strings. -/
def strContains (s pat : String) : Bool :=
  s.data.tails.any (fun t => List.isPrefixOf pat.data t)

/-- Python `str.lower()` (ASCII case folding, which covers the tag and
text data the rules compare). -/
def pyLower (s : String) : String :=
  s.toLower

/-! The reference-resolution helpers of `PythonLogicalValidator`. -/

/-- `_normalize_dest_path`: `dest.strip().strip("/")`. -/
def normalizeDestPath (s : String) : String :=
  stripSlashes (pyStrip s)

/-- `_extract_short_name_from_dest`: final path segment of the normalized
DEST value (empty string when there is no segment). -/
def extractShortNameFromDest (s : String) : String :=
  match (splitSlash (normalizeDestPath s).data).getLast? with
  | some seg => ⟨seg⟩
  | none => ""

/-- Python-dict style association-list lookup (keys kept unique by
`insertReplace`). -/
def lookupA {α : Type} (m : List (String × α)) (k : String) : Option α :=
  match m with
  | [] => none
  | (k2, v) :: rest => if k = k2 then some v else lookupA rest k

/-- Python-dict style insertion: re-assigning an existing key keeps its
position and replaces the value, a fresh key is appended. -/
def insertReplace {α : Type} (m : List (String × α)) (k : String) (v : α) :
    List (String × α) :=
  if m.any (fun q => q.1 = k) then
    m.map (fun q => if q.1 = k then (k, v) else q)
  else m ++ [(k, v)]

/-- The index from `resolve(reference_string, index)` in the spec:
look the final path segment up in the supplied index, exactly as the rules
do with `self.cluster_index`, `self.runnable_index`, etc. -/
def resolveRef {α : Type} (index : List (String × α)) (ref : String) : Option α :=
  lookupA index (extractShortNameFromDest ref)

/-! The pipeline orchestrator of `validation_pipeline.py`. -/

/-- `ValidationError` of `python_logical_validations.py`. -/
structure ValidationError : Type where
  rule_number : Nat
  severity : String
  message : String
  xpath : String
  line_number : Nat
deriving DecidableEq

/-- `ValidationError.__repr__`, used when the pipeline stringifies the
Python-stage findings. -/
def ValidationError.reprStr (e : ValidationError) : String :=
  "Rule " ++ toString e.rule_number ++ " [" ++ e.severity ++ "]: " ++
    e.message ++ " (at " ++ e.xpath ++ ")"

/-- `ValidationResult` of `validation_pipeline.py`: per-stage pass flags
and error lists for a single file. -/
structure ValidationResult : Type where
  file_path : String
  xsd_passed : Bool
  xsd_errors : List String
  schematron_passed : Bool
  schematron_errors : List String
  python_passed : Bool
  python_errors : List String

/-- `ValidationResult.__init__`: all stages start at `False` with empty
error lists. -/
def ValidationResult.init (fp : String) : ValidationResult :=
  ⟨fp, false, [], false, [], false, []⟩

/-- `ValidationResult.is_valid`: conjunction of the three stage flags. -/
def ValidationResult.is_valid (r : ValidationResult) : Bool :=
  r.xsd_passed && r.schematron_passed && r.python_passed

/-- `ValidationResult.total_errors`: sum of all three stage error counts. -/
def ValidationResult.total_errors (r : ValidationResult) : Nat :=
  r.xsd_errors.length + r.schematron_errors.length + r.python_errors.length

/-- What the external `xmlschema` engine did with one file, as observed by
`ValidationPipeline._validate_xsd`. -/
inductive XsdOutcome : Type where
  | noSchema
  | valid
  | invalid (errs : List (String × String))
  | exn (msg : String)

/-- `ValidationPipeline._validate_xsd`: skip when no schema is loaded,
format `iter_errors` entries as `At path: reason` on failure, fall back to
a fixed message when the engine reports no detail, wrap exceptions. -/
def validateXsd : XsdOutcome → Bool × List String
  | .noSchema => (true, [])
  | .valid => (true, [])
  | .invalid errs =>
      let msgs := errs.map (fun q =>
        (if q.1 = "" then "At <unknown>:" else "At " ++ q.1 ++ ":") ++ " " ++ q.2)
      (false, if msgs.isEmpty then ["Unknown XSD validation error"] else msgs)
  | .exn m => (false, ["XSD validation error: " ++ m])

/-- What the Schematron subprocess did with one file, as observed by
`ValidationPipeline._validate_schematron`. -/
inductive SchOutcome : Type where
  | ran (returncode : Int) (stdout : String) (stderr : String)
  | timeout
  | exn (msg : String)

/-- One line of the bullet-parsing step: `- msg` keeps the rest verbatim,
`-msg` (no second dash) keeps the rest left-stripped. -/
def bulletOf (line : String) : Option String :=
  let s := pyStrip line
  match s.data with
  | '-' :: ' ' :: rest => some ⟨rest⟩
  | '-' :: c :: rest => if c = '-' then none else some ⟨(c :: rest).dropWhile Char.isWhitespace⟩
  | _ => none

/-- Replace every maximal whitespace run by a single space; the Boolean
records whether the previous character was whitespace. -/
def collapseWsGo : Bool → List Char → List Char
  | _, [] => []
  | prevWs, c :: rest =>
      if c.isWhitespace then
        if prevWs then collapseWsGo true rest else ' ' :: collapseWsGo true rest
      else c :: collapseWsGo false rest

/-- `re.sub(r"\s+", " ", txt).strip()`: collapse whitespace runs into one
space, then strip. -/
def collapseWs (s : String) : String :=
  pyStrip ⟨collapseWsGo false s.data⟩

/-- `str.splitlines()` on newline-separated output (ASCII newlines, with a
stray carriage return stripped per line; a trailing final newline yields no
extra empty line). -/
def pySplitlines (s : String) : List String :=
  let parts := (s.splitOn "\n").map (fun t => ⟨rstrip (fun c => c == '\r') t.data⟩)
  match parts.getLast? with
  | some "" => parts.dropLast
  | _ => parts

/-- The keyword filter of the final fallback step of
`_validate_schematron`. -/
def interestingLine (line : String) : Option String :=
  let s := pyStrip line
  if ["fail", "failed-assert", "error", "assert", "schematron"].any
      (fun tok => strContains (pyLower s) tok)
  then some s else none

/-- Python `lst[-20:]`: at most the last twenty entries. -/
def lastTwenty {α : Type} (l : List α) : List α :=
  l.drop (l.length - 20)

/-- `ValidationPipeline._validate_schematron`.  The two SVRL regular
expressions (`re.findall` over the namespaced and plain `failed-assert`
forms) are abstracted as functions `svrlNs` and `svrlPlain` from the raw
output to `(location, text)` pairs; everything else — token scanning,
bullet lines, `[FAIL]` lines, the keyword fallback and the final fixed
message — is modelled concretely. -/
def validateSchematron (svrlNs svrlPlain : String → List (String × String)) :
    SchOutcome → Bool × List String
  | .timeout => (false, ["Schematron validation timed out"])
  | .exn m => (false, ["Schematron validation error: " ++ m])
  | .ran rc out err =>
      let output := out ++ err
      let passedTokens := strContains output "[PASS]" || strContains output "PASSED"
      let failedTokens := strContains output "[FAIL]" || strContains output "FAILED"
      if rc = 0 && passedTokens && !failedTokens then (true, [])
      else if rc ≠ 0 || failedTokens then
        let errors1 := (output.splitOn "\n").filterMap bulletOf
        let errors2 :=
          if errors1.isEmpty then
            (svrlNs output).map (fun q => q.1 ++ " — " ++ collapseWs q.2)
          else errors1
        let errors3 :=
          if errors2.isEmpty then
            (svrlPlain output).map (fun q => q.1 ++ " — " ++ collapseWs q.2)
          else errors2
        let errors4 :=
          if errors3.isEmpty then
            (output.splitOn "\n").filterMap (fun line =>
              let s := pyStrip line
              if String.isPrefixOf "[FAIL]" s then some s else none)
          else errors3
        let errors5 :=
          if errors4.isEmpty then
            lastTwenty ((pySplitlines output).filterMap interestingLine)
          else errors4
        (false,
          if errors5.isEmpty then
            ["Schematron validation failed (no parsable messages; raw output suppressed)"]
          else errors5)
      else (true, [])

/-- What `python_logical_validations.validate_file` did with one file, as
observed by `ValidationPipeline._validate_python`. -/
inductive PyOutcome : Type where
  | ok (errs : List ValidationError)
  | exn (msg : String)

/-- `ValidationPipeline._validate_python`: a nonempty findings list fails
the stage with the stringified findings, exceptions become a stage error. -/
def validatePython : PyOutcome → Bool × List String
  | .ok errs =>
      if errs.isEmpty then (true, [])
      else (false, errs.map ValidationError.reprStr)
  | .exn m => (false, ["Python validation error: " ++ m])

/-- `ValidationPipeline.validate_file`, parametrised by the three stage
functions (each a function of the validated file): run all three stages in
order on the same file, record each stage's flag and error list, then force
the Python stage to failed when its error list is nonempty. -/
def validateFilePipeline (xsdStage schStage pyStage : String → Bool × List String)
    (xml_file : String) : ValidationResult :=
  let r0 := ValidationResult.init xml_file
  let xr := xsdStage xml_file
  let r1 := { r0 with xsd_passed := xr.1, xsd_errors := xr.2 }
  let sr := schStage xml_file
  let r2 := { r1 with schematron_passed := sr.1, schematron_errors := sr.2 }
  let pr := pyStage xml_file
  let r3 := { r2 with python_passed := pr.1, python_errors := pr.2 }
  if r3.python_errors.isEmpty then r3 else { r3 with python_passed := false }

/-! The shared C-identifier helper and the naming rules
(`_validate_c_identifier` and rules 7, 16, 28, 44, 46, 52, 56). -/

/-- An ASCII letter. -/
def isAsciiAlpha (c : Char) : Bool :=
  (('a' ≤ c) && (c ≤ 'z')) || (('A' ≤ c) && (c ≤ 'Z'))

/-- A character matching `[a-zA-Z_]`. -/
def isCIdentStart (c : Char) : Bool :=
  isAsciiAlpha c || c = '_'

/-- A character matching `[a-zA-Z0-9_]`. -/
def isCIdentChar (c : Char) : Bool :=
  isAsciiAlpha c || c.isDigit || c = '_'

/-- The tail of the regex scan for `[a-zA-Z0-9_]*$` under Python `re`
semantics, where `$` also matches just before one newline at the very end
of the string. -/
def cIdentTailMatch : List Char → Bool
  | [] => true
  | c :: rest =>
      match rest with
      | [] => c = '\n' || isCIdentChar c
      | _ => isCIdentChar c && cIdentTailMatch rest

/-- `re.match(r"^[a-zA-Z_][a-zA-Z0-9_]*$", name)` truthiness, including
Python's end-anchor behaviour (`$` matches before a single trailing
newline). -/
def cIdentReMatch (s : String) : Bool :=
  match s.data with
  | [] => false
  | c :: rest => isCIdentStart c && cIdentTailMatch rest

/-- Modelled from the spec: "an identifier must match
`[A-Za-z_][A-Za-z0-9_]*`" — a full match of the whole string, with no
trailing-newline allowance.  Used to compare the spec's wording with the
checker actually implemented by `_validate_c_identifier`. -/
def specCIdentFull (s : String) : Bool :=
  match s.data with
  | [] => false
  | c :: rest => isCIdentStart c && rest.all isCIdentChar

/-- Modelled from the spec, amended: a full match of
`[A-Za-z_][A-Za-z0-9_]*`, or such a match followed by exactly one trailing
newline (the behaviour of Python's `$` end anchor). -/
def specCIdentNL (s : String) : Bool :=
  specCIdentFull s ||
    (match s.data.getLast? with
     | some c => c = '\n' && specCIdentFull ⟨s.data.dropLast⟩
     | none => false)

/-- The fixed C keyword list of `_validate_c_identifier`. -/
def cKeywords : List String :=
  ["auto", "break", "case", "char", "const", "continue", "default", "do",
   "double", "else", "enum", "extern", "float", "for", "goto", "if",
   "inline", "int", "long", "register", "restrict", "return", "short",
   "signed", "sizeof", "static", "struct", "switch", "typedef", "union",
   "unsigned", "void", "volatile", "while", "_Alignas", "_Alignof",
   "_Atomic", "_Bool", "_Complex", "_Generic", "_Imaginary", "_Noreturn",
   "_Static_assert", "_Thread_local"]

/-- The two rejection messages of `_validate_c_identifier`. -/
def cIdentPatternMsg : String :=
  "is not a valid C identifier. C identifiers must match the pattern ^[a-zA-Z_][a-zA-Z0-9_]*$ (start with letter or underscore, contain only letters, digits, and underscores)."

/-- The keyword rejection message of `_validate_c_identifier`. -/
def cIdentKeywordMsg : String :=
  "is a reserved C keyword and cannot be used as an identifier."

/-- `PythonLogicalValidator._validate_c_identifier`: pattern first, then
the keyword set; returns `(is_valid, error_message)`. -/
def validateCIdentifier (name : String) : Bool × String :=
  if !cIdentReMatch name then (false, cIdentPatternMsg)
  else if cKeywords.contains name then (false, cIdentKeywordMsg)
  else (true, "")

/-- The common shape of the naming rules: for each `(xpath, name)` entity,
emit one finding with the rule's message exactly when the shared helper
rejects the name. -/
def namingFindings (ruleNumber : Nat) (fmt : String → String → String)
    (items : List (String × String)) : List ValidationError :=
  items.flatMap (fun q =>
    if (validateCIdentifier q.2).1 then []
    else [⟨ruleNumber, "error", fmt q.2 (validateCIdentifier q.2).2, q.1, 0⟩])

/-- `(xpath, name)` pairs of all `//TAG` nodes that carry a
`SHORT-NAME/@name`, in document order. -/
def namedEntities (root : Elem) (t : String) : List (String × String) :=
  (findAll root t).filterMap (fun pe =>
    (firstShortName pe.2).map (fun n => (getpath root pe.1, n)))

/-- Rule 7: runnable names are valid C identifiers. -/
def validateRule7 (root : Elem) : List ValidationError :=
  (namedEntities root "RUNNABLE-ENTITY").flatMap (fun q =>
    if (validateCIdentifier q.2).1 then []
    else [⟨7, "error", "Runnable name '" ++ q.2 ++ "' " ++ (validateCIdentifier q.2).2, q.1, 0⟩])

/-- Rule 16: event names (three event kinds, grouped by kind as in the
source loop) are valid C identifiers. -/
def validateRule16 (root : Elem) : List ValidationError :=
  (["TIMING-EVENT", "DATA-RECEIVED-EVENT", "TRIGGER-EVENT"].flatMap
      (fun t => namedEntities root t)).flatMap (fun q =>
    if (validateCIdentifier q.2).1 then []
    else [⟨16, "error", "Event SHORT-NAME/@name '" ++ q.2 ++ "' " ++ (validateCIdentifier q.2).2, q.1, 0⟩])

/-- Rule 28: sender-receiver interface names are valid C identifiers. -/
def validateRule28 (root : Elem) : List ValidationError :=
  (namedEntities root "SENDER-RECEIVER-INTERFACE").flatMap (fun q =>
    if (validateCIdentifier q.2).1 then []
    else [⟨28, "error", "SENDER-RECEIVER-INTERFACE name '" ++ q.2 ++ "' " ++ (validateCIdentifier q.2).2, q.1, 0⟩])

/-- Rule 44: ECU names are valid C identifiers. -/
def validateRule44 (root : Elem) : List ValidationError :=
  (namedEntities root "ECUs").flatMap (fun q =>
    if (validateCIdentifier q.2).1 then []
    else [⟨44, "error", "ECU name '" ++ q.2 ++ "' " ++ (validateCIdentifier q.2).2, q.1, 0⟩])

/-- `(xpath, name)` pairs of the `//ECUs/SoCs` step: `SoCs` children of
`ECUs` nodes, each carrying a `SHORT-NAME/@name`. -/
def ecuSocEntities (root : Elem) : List (String × String) :=
  ((findAll root "ECUs").flatMap (fun pe =>
      (childrenWithPos pe).filter (fun q => q.2.tag = "SoCs"))).filterMap (fun pe =>
    (firstShortName pe.2).map (fun n => (getpath root pe.1, n)))

/-- Rule 46: SoC names (`//ECUs/SoCs`) are valid C identifiers. -/
def validateRule46 (root : Elem) : List ValidationError :=
  (ecuSocEntities root).flatMap (fun q =>
    if (validateCIdentifier q.2).1 then []
    else [⟨46, "error", "SoC name '" ++ q.2 ++ "' " ++ (validateCIdentifier q.2).2, q.1, 0⟩])

/-- Rule 52: chiplet names are valid C identifiers. -/
def validateRule52 (root : Elem) : List ValidationError :=
  (namedEntities root "Chiplet").flatMap (fun q =>
    if (validateCIdentifier q.2).1 then []
    else [⟨52, "error", "Chiplet name '" ++ q.2 ++ "' " ++ (validateCIdentifier q.2).2, q.1, 0⟩])

/-- Rule 56: HWIP (`Generic_Hardware`) names are valid C identifiers. -/
def validateRule56 (root : Elem) : List ValidationError :=
  (namedEntities root "Generic_Hardware").flatMap (fun q =>
    if (validateCIdentifier q.2).1 then []
    else [⟨56, "error", "Generic_Hardware (HWIP) name '" ++ q.2 ++ "' " ++ (validateCIdentifier q.2).2, q.1, 0⟩])

/-! Rule 5 (`_validate_rule_5`): every provider port must be referenced by
exactly one `DATA-WRITE-ACCESS`. -/

/-- The fixed head of both Rule 5 messages for a given port. -/
def rule5Pre (portName portPath : String) : String :=
  "Provider port '" ++ portName ++ "' (at " ++ portPath ++ ") has "

/-- The fixed tail of the zero-references message of Rule 5. -/
def rule5ZeroTail : String :=
  " DATA-WRITE-ACCESS references. Each P-PORT must be connected to exactly one DATA-WRITE-ACCESS."

/-- The fixed tail of the multiple-references message of Rule 5. -/
def rule5ManyTail : String :=
  " DATA-WRITE-ACCESS references. Each P-PORT must be connected to exactly ONE DATA-WRITE-ACCESS."

/-- The Rule 5 message for a port with zero write-access references. -/
def rule5ZeroMsg (portName portPath : String) : String :=
  (rule5Pre portName portPath ++ "ZERO") ++ rule5ZeroTail

/-- The Rule 5 message for a port with `count > 1` write-access
references. -/
def rule5ManyMsg (portName portPath : String) (count : Nat) : String :=
  (rule5Pre portName portPath ++ toString count) ++ rule5ManyTail

/-- One step of the Rule 5 port collection: a port with a
`SHORT-NAME/@name` whose outermost `APPLICATION-SW-COMPONENT-TYPE`
ancestor also has a `SHORT-NAME/@name` is keyed by the expected reference
path `/SWCName/PortName` (a repeated path overwrites the stored port, as
in a Python dict); any port missing one of those names is skipped. -/
def rule5PortsStep (root : Elem) (m : List (String × (Pos × Elem)))
    (pe : Pos × Elem) : List (String × (Pos × Elem)) :=
  match firstShortName pe.2 with
  | none => m
  | some portName =>
      match firstAncestorTagged root pe.1 "APPLICATION-SW-COMPONENT-TYPE" with
      | none => m
      | some swc =>
          match firstShortName swc with
          | none => m
          | some swcName =>
              insertReplace m ("/" ++ swcName ++ "/" ++ portName) pe

/-- The port-collection phase of Rule 5 over all `P-PORT-PROTOTYPE`
elements in document order. -/
def rule5Ports (root : Elem) : List (String × (Pos × Elem)) :=
  (findAll root "P-PORT-PROTOTYPE").foldl (rule5PortsStep root) []

/-- All `PORT-PROTOTYPE-REF/@DEST` values below `DATA-WRITE-ACCESS`
elements, in document order. -/
def rule5Refs (root : Elem) : List String :=
  (findAll root "DATA-WRITE-ACCESS").flatMap (fun pe =>
    (pe.2.descendants.filter (fun d => d.tag = "PORT-PROTOTYPE-REF")).filterMap
      (fun d => d.attr? "DEST"))

/-- One step of the Rule 5 counting phase: a DEST value that is a known
port path bumps that path's count, any other value is ignored. -/
def rule5Bump (m : List (String × ((Pos × Elem) × Nat))) (r : String) :
    List (String × ((Pos × Elem) × Nat)) :=
  if m.any (fun q => q.1 = r) then
    m.map (fun q => if q.1 = r then (q.1, (q.2.1, q.2.2 + 1)) else q)
  else m

/-- The counting phase of Rule 5: each collected port path starts at zero
and is bumped once per matching DEST value. -/
def rule5Counts (root : Elem) : List (String × ((Pos × Elem) × Nat)) :=
  (rule5Refs root).foldl rule5Bump
    ((rule5Ports root).map (fun q => (q.1, (q.2, 0))))

/-- The finding emitted for one Rule 5 entry whose count is not one. -/
def rule5Render (root : Elem) (q : String × ((Pos × Elem) × Nat)) : ValidationError :=
  let portName := (firstShortName q.2.1.2).getD "unknown"
  let xpath := getpath root q.2.1.1
  if q.2.2 = 0 then ⟨5, "error", rule5ZeroMsg portName q.1, xpath, 0⟩
  else ⟨5, "error", rule5ManyMsg portName q.1 q.2.2, xpath, 0⟩

/-- `PythonLogicalValidator._validate_rule_5`: one finding per collected
port path with zero or more than one `DATA-WRITE-ACCESS` reference. -/
def validateRule5 (root : Elem) : List ValidationError :=
  (rule5Counts root).flatMap (fun q =>
    if q.2.2 = 0 then [rule5Render root q]
    else if 1 < q.2.2 then [rule5Render root q]
    else [])

/-! Rule 6 (`_validate_rule_6`): globally unique runnable names. -/

/-- The fixed part of the Rule 6 duplicate message before the first-seen
path. -/
def rule6DupMsgPre (n : String) : String :=
  "Duplicate RUNNABLE-ENTITY SHORT-NAME/@name '" ++ n ++
    "' found. Previous occurrence(s) at: "

/-- The Rule 6 duplicate finding: located at the repeated occurrence, its
message carries the path of the first-seen occurrence. -/
def rule6Err (n xp firstXp : String) : ValidationError :=
  ⟨6, "error", rule6DupMsgPre n ++ firstXp, xp, 0⟩

/-- The Rule 6 loop over `(xpath, name)` pairs: a name already in the
`name_to_paths` dict yields a duplicate finding, a fresh name records its
path. -/
def rule6Loop (seen : List (String × String)) :
    List (String × String) → List ValidationError
  | [] => []
  | (xp, n) :: rest =>
      match lookupA seen n with
      | some firstXp => rule6Err n xp firstXp :: rule6Loop seen rest
      | none => rule6Loop ((n, xp) :: seen) rest

/-- `PythonLogicalValidator._validate_rule_6` over the named
`//RUNNABLE-ENTITY` nodes in document order. -/
def validateRule6 (root : Elem) : List ValidationError :=
  rule6Loop [] (namedEntities root "RUNNABLE-ENTITY")

/-! Rules 22/23 (`_validate_data_access_operation`): READ/WRITE operations
of SWC internal behaviours must reference an existing data access of the
matching direction. -/

/-- The set (as a list) of valid data-access names for one direction:
`SHORT-NAME/@name` of every `//DATA-{OP}-ACCESS/VARIABLE-ACCESS`. -/
def validDataAccessNames (root : Elem) (opType : String) : List String :=
  (findAll root ("DATA-" ++ opType ++ "-ACCESS")).flatMap (fun pe =>
    (pe.2.childrenTagged "VARIABLE-ACCESS").filterMap firstShortName)

/-- The operations checked by rules 22/23:
`//SWC-INTERNAL-BEHAVIOR/OPERATIONS-SEQUENCE//{OP}`, with absolute
positions. -/
def swcOps (root : Elem) (opType : String) : List (Pos × Elem) :=
  (findAll root "SWC-INTERNAL-BEHAVIOR").flatMap (fun pe =>
    ((childrenWithPos pe).filter (fun q => q.2.tag = "OPERATIONS-SEQUENCE")).flatMap
      (fun q => (descWithPos q).filter (fun r => r.2.tag = opType)))

/-- The does-not-resolve message of rules 22/23 — note that it is the only
message this check can produce for a resolvable-looking reference, whether
the terminal segment exists nowhere or exists only with the opposite
direction. -/
def dataAccessUnresolvedMsg (opType dest : String) : String :=
  opType ++ " operation IREF DEST='" ++ dest ++ "' does not resolve to any DATA-" ++
    opType ++ "-ACCESS SHORT-NAME."

/-- `PythonLogicalValidator._validate_data_access_operation`: missing
`IREF`, empty `DEST`, or a terminal segment absent from the
matching-direction access set each yield one finding. -/
def validateDataAccessOperation (root : Elem) (opType : String)
    (ruleNumber : Nat) : List ValidationError :=
  let valid := validDataAccessNames root opType
  (swcOps root opType).flatMap (fun pe =>
    let xpath := getpath root pe.1
    match (pe.2.childrenTagged "IREF").head? with
    | none =>
        [⟨ruleNumber, "error", opType ++ " operation missing IREF child.", xpath, 0⟩]
    | some iref =>
        let dest := pyStrip (iref.attrD "DEST" "")
        if dest = "" then
          [⟨ruleNumber, "error", opType ++ " operation IREF has empty DEST attribute.", xpath, 0⟩]
        else
          let destName := lastSeg dest
          if valid.contains destName then []
          else [⟨ruleNumber, "error", dataAccessUnresolvedMsg opType dest, xpath, 0⟩])

/-! Rule 63 (`_validate_rule_63`): HWIP READ/WRITE operations must be
connected to an existing port of the matching direction; pointing at the
opposite direction and pointing at nothing are distinct findings. -/

/-- The direction-mismatch message of Rule 63 for a WRITE operation. -/
def rule63WriteMismatchMsg (hwipName portName : String) : String :=
  ("WRITE operation in HWIP '" ++ hwipName ++ "' ") ++
    ("points to R-PORT '" ++ portName ++ "'. WRITE operations must reference P-PORT-PROTOTYPE only.")

/-- The non-existent-port message of Rule 63 for a WRITE operation. -/
def rule63WriteMissingMsg (hwipName portName dest : String) : String :=
  ("WRITE operation in HWIP '" ++ hwipName ++ "' ") ++
    ("references non-existent port '" ++ portName ++ "' (DEST='" ++ dest ++ "').")

/-- The direction-mismatch message of Rule 63 for a READ operation. -/
def rule63ReadMismatchMsg (hwipName portName : String) : String :=
  ("READ operation in HWIP '" ++ hwipName ++ "' ") ++
    ("points to P-PORT '" ++ portName ++ "'. READ operations must reference R-PORT-PROTOTYPE only.")

/-- The non-existent-port message of Rule 63 for a READ operation. -/
def rule63ReadMissingMsg (hwipName portName dest : String) : String :=
  ("READ operation in HWIP '" ++ hwipName ++ "' ") ++
    ("references non-existent port '" ++ portName ++ "' (DEST='" ++ dest ++ "').")

/-- The per-operation WRITE check of Rule 63: terminal segment in the
provide-port map passes; only in the require-port map is a direction
mismatch; in neither is a non-existent port. -/
def rule63WriteCheck (hwipName : String) (pports rports : List String)
    (xpath dest : String) : List ValidationError :=
  let portName := lastSeg dest
  if pports.contains portName then []
  else if rports.contains portName then
    [⟨63, "error", rule63WriteMismatchMsg hwipName portName, xpath, 0⟩]
  else
    [⟨63, "error", rule63WriteMissingMsg hwipName portName dest, xpath, 0⟩]

/-- The per-operation READ check of Rule 63, the mirror image of the WRITE
check. -/
def rule63ReadCheck (hwipName : String) (pports rports : List String)
    (xpath dest : String) : List ValidationError :=
  let portName := lastSeg dest
  if rports.contains portName then []
  else if pports.contains portName then
    [⟨63, "error", rule63ReadMismatchMsg hwipName portName, xpath, 0⟩]
  else
    [⟨63, "error", rule63ReadMissingMsg hwipName portName dest, xpath, 0⟩]

/-- Port names of one HWIP for a given port kind:
`.//INTERNAL-BEHAVIOR/PORTS/{KIND}` names. -/
def hwipPortNames (hwip : Elem) (kind : String) : List String :=
  ((hwip.descendants.filter (fun d => d.tag = "INTERNAL-BEHAVIOR")).flatMap
      (fun ib => (ib.childrenTagged "PORTS").flatMap
        (fun ps => ps.childrenTagged kind))).filterMap firstShortName

/-- The operations of one positioned HWIP:
`.//INTERNAL-BEHAVIOR/OPERATIONS-SEQUENCE/OPERATION`, with absolute
positions. -/
def hwipOperations (pe : Pos × Elem) : List (Pos × Elem) :=
  ((descWithPos pe).filter (fun q => q.2.tag = "INTERNAL-BEHAVIOR")).flatMap
    (fun ib => ((childrenWithPos ib).filter (fun q => q.2.tag = "OPERATIONS-SEQUENCE")).flatMap
      (fun os => (childrenWithPos os).filter (fun q => q.2.tag = "OPERATION")))

/-- One direction of the Rule 63 operation loop: the direct `WRITE` (or
`READ`) children of an operation, skipping a missing `IREF` or an empty
`DEST` (those are Rule 62's findings). -/
def rule63OpDirection (root : Elem) (hwipName : String) (pports rports : List String)
    (check : String → List String → List String → String → String → List ValidationError)
    (op : Pos × Elem) (dirTag : String) : List ValidationError :=
  ((childrenWithPos op).filter (fun q => q.2.tag = dirTag)).flatMap (fun w =>
    match (w.2.childrenTagged "IREF").head? with
    | none => []
    | some iref =>
        let dest := pyStrip (iref.attrD "DEST" "")
        if dest = "" then []
        else check hwipName pports rports (getpath root w.1) dest)

/-- `PythonLogicalValidator._validate_rule_63`: for every named HWIP,
check WRITE then READ children of each operation against the HWIP's own
port maps. -/
def validateRule63 (root : Elem) : List ValidationError :=
  (findAll root "Generic_Hardware").flatMap (fun pe =>
    match firstShortName pe.2 with
    | none => []
    | some hwipName =>
        let pports := hwipPortNames pe.2 "P-PORT-PROTOTYPE"
        let rports := hwipPortNames pe.2 "R-PORT-PROTOTYPE"
        (hwipOperations pe).flatMap (fun op =>
          rule63OpDirection root hwipName pports rports rule63WriteCheck op "WRITE" ++
          rule63OpDirection root hwipName pports rports rule63ReadCheck op "READ"))

/-! Rule 76 (HW) (`_validate_rule_76_hw_frequency`): a CPU cluster whose
operating-system subtree declares Linux must have Frequency exactly
1000000000 Hz. -/

/-- The Linux detection of `_validate_rule_76_hw_frequency`: an
`Operating-System`/`OS`/`OperatingSystem` descendant with a `Linux`
descendant or with "linux" in its lowercased text, or — as a fallback —
any descendant whose tag contains `Linux` or `LINUX`. -/
def isLinuxCluster (c : Elem) : Bool :=
  let osNodes := c.descendants.filter (fun d =>
    d.tag = "Operating-System" || d.tag = "OS" || d.tag = "OperatingSystem")
  (osNodes.any (fun o =>
      (o.descendants.any (fun d => d.tag = "Linux")) ||
      (o.text ≠ "" && strContains (pyLower o.text) "linux"))) ||
  c.descendants.any (fun d => strContains d.tag "Linux" || strContains d.tag "LINUX")

/-- Cluster display name: `find(".//SHORT-NAME").get("name", "unnamed")`,
or `"unnamed"` when the cluster has no `SHORT-NAME` descendant. -/
def clusterNameOf (c : Elem) : String :=
  match (c.descendants.filter (fun d => d.tag = "SHORT-NAME")).head? with
  | none => "unnamed"
  | some sn => sn.attrD "name" "unnamed"

/-- The frequency value of one `Frequency` node: the stripped `value`
attribute, or the stripped text when the attribute is empty or absent. -/
def freqValueOf (f : Elem) : String :=
  let v := pyStrip (f.attrD "value" "")
  if v = "" then pyStrip f.text else v

/-- The missing-frequency message of Rule 76 (HW). -/
def rule76MissingMsg (clusterName : String) : String :=
  "CPU_Cluster \"" ++ clusterName ++ "\" running Linux OS is missing Frequency value"

/-- The wrong-frequency (policy) message of Rule 76 (HW). -/
def rule76FreqMsg (clusterName : String) (freq : Int) : String :=
  "CPU_Cluster \"" ++ clusterName ++ "\" running Linux OS has invalid Frequency: " ++
    toString freq ++ " Hz. Must be exactly 1000000000 Hz (1 GHz)"

/-- The non-numeric-frequency message of Rule 76 (HW). -/
def rule76NonNumMsg (clusterName value : String) : String :=
  "CPU_Cluster \"" ++ clusterName ++ "\" running Linux OS has invalid Frequency value: \"" ++
    value ++ "\" (must be numeric)"

/-- The per-cluster body of `_validate_rule_76_hw_frequency`: skip
non-Linux clusters; a Linux cluster without `Frequency` descendants gets
the missing-value finding; otherwise each nonempty frequency value is
parsed and checked against 1000000000. -/
def clusterFreqErrs (root : Elem) (pe : Pos × Elem) : List ValidationError :=
  if !isLinuxCluster pe.2 then []
  else
    let clusterName := clusterNameOf pe.2
    let freqs := (descWithPos pe).filter (fun q => q.2.tag = "Frequency")
    if freqs.isEmpty then
      [⟨76, "error", rule76MissingMsg clusterName, getpath root pe.1, 0⟩]
    else
      freqs.flatMap (fun f =>
        let v := freqValueOf f.2
        if v = "" then []
        else
          match pythonInt v with
          | some k =>
              if k ≠ 1000000000 then
                [⟨76, "error", rule76FreqMsg clusterName k, getpath root f.1, 0⟩]
              else []
          | none =>
              [⟨76, "error", rule76NonNumMsg clusterName v, getpath root f.1, 0⟩])

/-- The clusters visited by Rule 76 (HW):
`//CPU_Cluster | //CPU-Cluster | //CPUCluster` in document order. -/
def rule76Clusters (root : Elem) : List (Pos × Elem) :=
  root.allNodes.filter (fun pe =>
    pe.2.tag = "CPU_Cluster" || pe.2.tag = "CPU-Cluster" || pe.2.tag = "CPUCluster")

/-- `PythonLogicalValidator._validate_rule_76_hw_frequency`. -/
def validateRule76HwFrequency (root : Elem) : List ValidationError :=
  (rule76Clusters root).flatMap (clusterFreqErrs root)

/-! Rule 79 (`_validate_rule_79`): the `CoreId` of every
`Core-PrebuiltApplication-Mapping` must be valid for the referenced
cluster. -/

/-- `self.cluster_index`: every `//CPU_Cluster` keyed by its first
descendant `SHORT-NAME/@name`; later clusters with the same name overwrite
earlier ones. -/
def clusterIndex (root : Elem) : List (String × Elem) :=
  (findAll root "CPU_Cluster").foldl (fun m pe =>
    match firstDescShortName pe.2 with
    | none => m
    | some nm => insertReplace m nm pe.2) []

/-- `mapping.xpath("parent::*//@ClusterRef")[0]`: the first `ClusterRef`
attribute on the parent element or any of its descendants, in document
order (`none` when the mapping is the root or no such attribute exists). -/
def parentClusterRef (root : Elem) (p : Pos) : Option String :=
  match p.dropLast, p with
  | _, [] => none
  | pp, _ :: _ =>
      match subtreeAt root pp with
      | none => none
      | some parent =>
          ((parent :: parent.descendants).filterMap (fun d => d.attr? "ClusterRef")).head?

/-- `CoresPerCluster` of a cluster: the attribute of the first descendant
element carrying it, parsed as an integer (`none` when absent or
non-numeric, in which case the range check is skipped). -/
def coresPerClusterOf (cluster : Elem) : Option Int :=
  match (cluster.descendants.filter (fun d => (d.attr? "CoresPerCluster").isSome)).head? with
  | none => none
  | some el => pythonInt (el.attrD "CoresPerCluster" "")

/-- The out-of-range message of Rule 79. -/
def rule79RangeMsg (coreId : Int) (clusterName : String) (cpc : Int) : String :=
  "Core-PrebuiltApplication-Mapping CoreId=" ++ toString coreId ++
    " out of range for cluster '" ++ clusterName ++ "' (CoresPerCluster=" ++
    toString cpc ++ ")"

/-- The mappings visited by rules 77/79:
`//Core-PrebuiltApplication-Mapping | //CorePrebuiltAppMapping` in document
order. -/
def rule79Mappings (root : Elem) : List (Pos × Elem) :=
  root.allNodes.filter (fun pe =>
    pe.2.tag = "Core-PrebuiltApplication-Mapping" || pe.2.tag = "CorePrebuiltAppMapping")

/-- `PythonLogicalValidator._validate_rule_79`: parse `CoreId`, resolve the
parent-scope `ClusterRef` through the cluster index, read
`CoresPerCluster`, and report only when `core_id >= cores_per_cluster` —
the code performs no lower-bound check. -/
def validateRule79 (root : Elem) : List ValidationError :=
  (rule79Mappings root).flatMap (fun pe =>
    let coreIdStr := pyStrip (pe.2.attrD "CoreId" "")
    if coreIdStr = "" then []
    else
      match pythonInt coreIdStr with
      | none => []
      | some coreId =>
          match parentClusterRef root pe.1 with
          | none => []
          | some clusterRefVal =>
              let clusterName := extractShortNameFromDest clusterRefVal
              match lookupA (clusterIndex root) clusterName with
              | none => []
              | some clusterElem =>
                  match coresPerClusterOf clusterElem with
                  | none => []
                  | some cpc =>
                      if cpc ≤ coreId then
                        [⟨79, "error", rule79RangeMsg coreId clusterName cpc,
                          getpath root pe.1, 0⟩]
                      else [])

/-! Shared helper lemmas about the pipeline orchestrator. -/

/-- Field-by-field characterization of `validate_file`: every recorded
stage value is the corresponding stage function applied to the validated
file, with the Python flag additionally conjoined with emptiness of the
Python error list (the force-fail statement). -/
theorem validateFilePipeline_fields (f g h : String → Bool × List String) (x : String) :
    (validateFilePipeline f g h x).file_path = x ∧
    (validateFilePipeline f g h x).xsd_passed = (f x).1 ∧
    (validateFilePipeline f g h x).xsd_errors = (f x).2 ∧
    (validateFilePipeline f g h x).schematron_passed = (g x).1 ∧
    (validateFilePipeline f g h x).schematron_errors = (g x).2 ∧
    (validateFilePipeline f g h x).python_errors = (h x).2 ∧
    (validateFilePipeline f g h x).python_passed = ((h x).1 && (h x).2.isEmpty) := by
  unfold validateFilePipeline ValidationResult.init
  by_cases hp : (h x).2.isEmpty
  · simp [hp]
  · simp [hp]

/-- `_validate_xsd` never pairs a passing flag with a nonempty error
list. -/
theorem validateXsd_passed_empty (xo : XsdOutcome) :
    (validateXsd xo).1 = true → (validateXsd xo).2 = [] := by
  cases xo <;> simp [validateXsd]

/-- `_validate_schematron` never pairs a passing flag with a nonempty
error list (for any behaviour of the SVRL regex extractions). -/
theorem validateSchematron_passed_empty
    (svrlNs svrlPlain : String → List (String × String)) (so : SchOutcome) :
    (validateSchematron svrlNs svrlPlain so).1 = true →
      (validateSchematron svrlNs svrlPlain so).2 = [] := by
  cases so with
  | timeout => simp [validateSchematron]
  | exn m => simp [validateSchematron]
  | ran rc out err =>
      unfold validateSchematron
      dsimp only
      split_ifs <;> simp

/-- `_validate_python` passes exactly when its error list is empty. -/
theorem validatePython_passed_iff (po : PyOutcome) :
    (validatePython po).1 = (validatePython po).2.isEmpty := by
  cases po with
  | ok errs => cases errs <;> simp [validatePython]
  | exn m => simp [validatePython]

/-- Applied to the real Python stage, the force-fail statement of
`validate_file` is the identity: the stage flag already reflects error
emptiness. -/
theorem validatePython_forced_noop (po : PyOutcome) :
    ((validatePython po).1 && (validatePython po).2.isEmpty) = (validatePython po).1 := by
  cases po with
  | ok errs => cases errs <;> simp [validatePython]
  | exn m => simp [validatePython]

/-- C1: `ValidationPipeline.validate_file` runs all three stages (XSD,
Schematron, Python rule engine) against the same document unconditionally.
For arbitrary per-file behaviours of the three external tools, every
recorded stage flag and error list equals that stage's own outcome on the
validated file — it is a function of that stage's outcome alone, so no
stage is skipped or altered by an earlier stage's failure. -/
theorem c1_all_stages_always_run
    (xsdOut : String → XsdOutcome) (schOut : String → SchOutcome)
    (pyOut : String → PyOutcome)
    (svrlNs svrlPlain : String → List (String × String)) (x : String) :
    (validateFilePipeline (fun y => validateXsd (xsdOut y))
        (fun y => validateSchematron svrlNs svrlPlain (schOut y))
        (fun y => validatePython (pyOut y)) x) =
      { file_path := x
        xsd_passed := (validateXsd (xsdOut x)).1
        xsd_errors := (validateXsd (xsdOut x)).2
        schematron_passed := (validateSchematron svrlNs svrlPlain (schOut x)).1
        schematron_errors := (validateSchematron svrlNs svrlPlain (schOut x)).2
        python_passed := (validatePython (pyOut x)).1
        python_errors := (validatePython (pyOut x)).2 } := by
  have h := validateFilePipeline_fields (fun y => validateXsd (xsdOut y))
    (fun y => validateSchematron svrlNs svrlPlain (schOut y))
    (fun y => validatePython (pyOut y)) x
  obtain ⟨h1, h2, h3, h4, h5, h6, h7⟩ := h
  cases hres : validateFilePipeline (fun y => validateXsd (xsdOut y))
    (fun y => validateSchematron svrlNs svrlPlain (schOut y))
    (fun y => validatePython (pyOut y)) x
  rw [hres] at h1 h2 h3 h4 h5 h6 h7
  simp only [ValidationResult.mk.injEq]
  refine ⟨h1, h2, h3, h4, h5, ?_, h6⟩
  exact h7.trans (validatePython_forced_noop (pyOut x))

/-- C2: `is_valid()` is true exactly when all three stage flags are true
(error lists play no role), a freshly constructed `ValidationResult` has
empty error lists yet `is_valid() == false`, and `total_errors()` is the
sum of the three stage error-list lengths. -/
theorem c2_verdict_semantics (r : ValidationResult) (fp : String) :
    (r.is_valid = true ↔
      (r.xsd_passed = true ∧ r.schematron_passed = true ∧ r.python_passed = true)) ∧
    (ValidationResult.init fp).is_valid = false ∧
    (ValidationResult.init fp).xsd_errors = [] ∧
    (ValidationResult.init fp).schematron_errors = [] ∧
    (ValidationResult.init fp).python_errors = [] ∧
    r.total_errors =
      r.xsd_errors.length + r.schematron_errors.length + r.python_errors.length := by
  refine ⟨?_, rfl, rfl, rfl, rfl, rfl⟩
  simp [ValidationResult.is_valid, Bool.and_eq_true, and_assoc]

/-- C10: stage-consistency invariant of every `ValidationResult` produced
by `validate_file` over the modelled stage helpers: a passing stage flag
implies an empty error list for that stage, the Python stage is forced to
failed whenever its error list is nonempty, and the XSD and Schematron
helpers only ever return a passing flag paired with an empty list. -/
theorem c10_stage_consistency
    (xo : XsdOutcome) (so : SchOutcome) (po : PyOutcome)
    (svrlNs svrlPlain : String → List (String × String)) (x : String)
    (r : ValidationResult)
    (hr : r = validateFilePipeline (fun _ => validateXsd xo)
        (fun _ => validateSchematron svrlNs svrlPlain so)
        (fun _ => validatePython po) x) :
    (r.xsd_passed = true → r.xsd_errors = []) ∧
    (r.schematron_passed = true → r.schematron_errors = []) ∧
    (r.python_passed = true → r.python_errors = []) ∧
    (r.python_errors ≠ [] → r.python_passed = false) ∧
    ((validateXsd xo).1 = true → (validateXsd xo).2 = []) ∧
    ((validateSchematron svrlNs svrlPlain so).1 = true →
      (validateSchematron svrlNs svrlPlain so).2 = []) := by
  have h := validateFilePipeline_fields (fun _ => validateXsd xo)
    (fun _ => validateSchematron svrlNs svrlPlain so)
    (fun _ => validatePython po) x
  rw [← hr] at h
  obtain ⟨h1, h2, h3, h4, h5, h6, h7⟩ := h
  refine ⟨?_, ?_, ?_, ?_, validateXsd_passed_empty xo,
    validateSchematron_passed_empty svrlNs svrlPlain so⟩
  · intro hp
    rw [h3]
    exact validateXsd_passed_empty xo (h2 ▸ hp)
  · intro hp
    rw [h5]
    exact validateSchematron_passed_empty svrlNs svrlPlain so (h4 ▸ hp)
  · intro hp
    rw [h7, Bool.and_eq_true] at hp
    rw [h6]
    exact List.isEmpty_iff.mp hp.2
  · intro hp
    rw [h6] at hp
    rw [h7]
    have : (validatePython po).2.isEmpty = false := by
      cases hpo : (validatePython po).2 with
      | nil => exact absurd hpo hp
      | cons a l => simp
    simp [this]

/-- Witness for C10 at concrete stage outcomes: a fully passing run has an
empty XSD error list, and a run whose Python stage reports one finding has
`python_passed = false`. -/
theorem c10_stage_consistency_witness :
    (validateFilePipeline (fun _ => validateXsd .valid)
        (fun _ => validateSchematron (fun _ => []) (fun _ => []) (.ran 0 "[PASS]" ""))
        (fun _ => validatePython (.ok [])) "f.xml").xsd_errors = [] ∧
    (validateFilePipeline (fun _ => validateXsd .valid)
        (fun _ => validateSchematron (fun _ => []) (fun _ => []) (.ran 0 "[PASS]" ""))
        (fun _ => validatePython (.ok [⟨7, "error", "bad name", "/DOC", 0⟩])) "f.xml").python_passed
      = false := by
  constructor
  · exact (c10_stage_consistency .valid (.ran 0 "[PASS]" "") (.ok []) (fun _ => [])
      (fun _ => []) "f.xml" _ rfl).1 rfl
  · exact (c10_stage_consistency .valid (.ran 0 "[PASS]" "")
      (.ok [⟨7, "error", "bad name", "/DOC", 0⟩]) (fun _ => []) (fun _ => []) "f.xml" _
      rfl).2.2.2.1 (by simp [validateFilePipeline, validatePython, ValidationResult.init])

/-- Bool-level comparison of the regex tail scan with the spec's
"full match, with Python's trailing-newline allowance" reading. -/
theorem cIdentTailMatch_eq (l : List Char) :
    cIdentTailMatch l =
      (l.all isCIdentChar ||
        (match l.getLast? with
         | some lc => lc = '\n' && l.dropLast.all isCIdentChar
         | none => false)) := by
  induction l with
  | nil => rfl
  | cons c rest ih =>
      cases rest with
      | nil =>
          have h1 : cIdentTailMatch [c] = (decide (c = '\n') || isCIdentChar c) := rfl
          rw [h1]
          simp only [List.getLast?_singleton, List.dropLast_single, List.all_cons,
            List.all_nil]
          cases hc : decide (c = '\n') <;> cases hi : isCIdentChar c <;> simp_all
      | cons d rest2 =>
          have h1 : cIdentTailMatch (c :: d :: rest2) =
              (isCIdentChar c && cIdentTailMatch (d :: rest2)) := rfl
          rw [h1, ih]
          cases hl : (d :: rest2).getLast? with
          | none => simp at hl
          | some lc =>
              simp only [List.getLast?_cons_cons, hl, List.dropLast_cons₂, List.all_cons]
              cases hic : isCIdentChar c <;> cases hlc : decide (lc = '\n') <;> simp_all

/-- The regex match performed by `_validate_c_identifier` equals the
amended spec predicate. -/
theorem cIdentReMatch_eq_specNL (s : String) : cIdentReMatch s = specCIdentNL s := by
  cases s with
  | mk data =>
      cases data with
      | nil => rfl
      | cons c rest =>
          have h1 : cIdentReMatch ⟨c :: rest⟩ = (isCIdentStart c && cIdentTailMatch rest) := rfl
          have h2 : specCIdentFull ⟨c :: rest⟩ = (isCIdentStart c && rest.all isCIdentChar) := rfl
          rw [h1, cIdentTailMatch_eq]
          unfold specCIdentNL
          rw [h2]
          cases rest with
          | nil =>
              cases his : isCIdentStart c <;> cases hc : decide (c = '\n') <;>
                simp_all [specCIdentFull]
          | cons d rest2 =>
              cases hl : (d :: rest2).getLast? with
              | none => simp at hl
              | some lc =>
                  have h3 : specCIdentFull ⟨c :: (d :: rest2).dropLast⟩ =
                      (isCIdentStart c && ((d :: rest2).dropLast).all isCIdentChar) := rfl
                  simp only [List.getLast?_cons_cons, hl, List.dropLast_cons₂, List.all_cons,
                    h3]
                  cases his : isCIdentStart c <;> cases hlc : decide (lc = '\n') <;> simp_all

/-- C9 counterexample: the name `"Run\n"` (reachable from an XML attribute
via a `&#10;` character reference) is accepted by the shared helper even
though it does not match `[A-Za-z_][A-Za-z0-9_]*` in full — Python's `$`
anchor also matches before a single trailing newline. -/
theorem c9_counterexample :
    (validateCIdentifier "Run\n").1 = true ∧
    specCIdentFull "Run\n" = false ∧
    cKeywords.contains "Run\n" = false := by
  refine ⟨by decide, by decide, by decide⟩

/-- C9 (amended): the shared helper accepts a name exactly when it matches
the identifier pattern in full — or the pattern followed by one trailing
newline, Python's `$` semantics — and is not a C keyword; and every naming
rule (runnables 7, events 16, interfaces 28, ECUs 44, SoCs 46, chiplets 52,
hardware blocks 56) is the same `namingFindings` combinator over the shared
helper, differing only in its entity list and message prefix, so the
acceptance decision for a given name string is identical across entity
kinds. -/
theorem c9_naming_rules_shared_helper (name : String) (root : Elem) :
    ((validateCIdentifier name).1 = true ↔
      (specCIdentNL name = true ∧ name ∉ cKeywords)) ∧
    validateRule7 root =
      namingFindings 7 (fun n m => "Runnable name '" ++ n ++ "' " ++ m)
        (namedEntities root "RUNNABLE-ENTITY") ∧
    validateRule16 root =
      namingFindings 16 (fun n m => "Event SHORT-NAME/@name '" ++ n ++ "' " ++ m)
        (["TIMING-EVENT", "DATA-RECEIVED-EVENT", "TRIGGER-EVENT"].flatMap
          (fun t => namedEntities root t)) ∧
    validateRule28 root =
      namingFindings 28 (fun n m => "SENDER-RECEIVER-INTERFACE name '" ++ n ++ "' " ++ m)
        (namedEntities root "SENDER-RECEIVER-INTERFACE") ∧
    validateRule44 root =
      namingFindings 44 (fun n m => "ECU name '" ++ n ++ "' " ++ m)
        (namedEntities root "ECUs") ∧
    validateRule46 root =
      namingFindings 46 (fun n m => "SoC name '" ++ n ++ "' " ++ m)
        (ecuSocEntities root) ∧
    validateRule52 root =
      namingFindings 52 (fun n m => "Chiplet name '" ++ n ++ "' " ++ m)
        (namedEntities root "Chiplet") ∧
    validateRule56 root =
      namingFindings 56 (fun n m => "Generic_Hardware (HWIP) name '" ++ n ++ "' " ++ m)
        (namedEntities root "Generic_Hardware") := by
  refine ⟨?_, rfl, rfl, rfl, rfl, rfl, rfl, rfl⟩
  unfold validateCIdentifier
  rw [cIdentReMatch_eq_specNL]
  by_cases hm : specCIdentNL name = true
  · by_cases hk : cKeywords.contains name = true
    · have hmem : name ∈ cKeywords := by
        simpa using hk
      simp [hm, hk, hmem]
    · have hmem : name ∉ cKeywords := by
        simpa using hk
      simp [hm, hk, hmem]
  · have hm2 : specCIdentNL name = false := by
      cases h : specCIdentNL name
      · rfl
      · exact absurd h hm
    simp [hm2]

/-! Helper lemmas about the normalization and splitting primitives, for
claim C8. -/

/-- `dropWhile` passes through a stopping character unchanged. -/
theorem dropWhile_append_stop (p : Char → Bool) (as bs : List Char) (c : Char)
    (hc : p c = false) :
    (as ++ c :: bs).dropWhile p = as.dropWhile p ++ c :: bs := by
  induction as with
  | nil => simp [List.dropWhile_cons, hc]
  | cons a as ih =>
      by_cases pa : p a = true
      · simp [List.dropWhile_cons, pa, ih]
      · simp [List.dropWhile_cons, pa]

/-- `rstrip` leaves a list alone when its final character is not
stripped. -/
theorem rstrip_concat_stop (p : Char → Bool) (xs : List Char) (c : Char)
    (hc : p c = false) :
    rstrip p (xs ++ [c]) = xs ++ [c] := by
  unfold rstrip
  simp [List.reverse_append, List.dropWhile_cons, hc]

/-- `dropWhile` over an append, by cases on whether the first part is
consumed entirely. -/
theorem dropWhile_append_cases (p : Char → Bool) (as bs : List Char) :
    (as ++ bs).dropWhile p =
      if (as.dropWhile p).isEmpty then bs.dropWhile p else as.dropWhile p ++ bs := by
  induction as with
  | nil => simp
  | cons a as ih =>
      by_cases pa : p a = true
      · simp [List.dropWhile_cons, pa, ih]
      · simp [List.dropWhile_cons, pa]

/-- `splitSlash` never returns the empty list. -/
theorem splitSlash_ne_nil (l : List Char) : splitSlash l ≠ [] := by
  cases l with
  | nil => simp [splitSlash]
  | cons c rest =>
      unfold splitSlash
      by_cases hc : c = '/'
      · simp [hc]
      · simp only [hc, if_false]
        cases splitSlash rest <;> simp

/-- A slash-free list splits into itself alone. -/
theorem splitSlash_no_slash (l : List Char) (h : ∀ c ∈ l, c ≠ '/') :
    splitSlash l = [l] := by
  induction l with
  | nil => rfl
  | cons c rest ih =>
      have hc : c ≠ '/' := h c (List.mem_cons_self _ _)
      have ih2 := ih (fun d hd => h d (List.mem_cons_of_mem _ hd))
      simp [splitSlash, hc, ih2]

/-- A list containing a slash splits into at least two pieces. -/
theorem two_le_splitSlash_of_mem (l : List Char) (h : '/' ∈ l) :
    2 ≤ (splitSlash l).length := by
  induction l with
  | nil => simp at h
  | cons c rest ih =>
      by_cases hc : c = '/'
      · have hne := splitSlash_ne_nil rest
        have hpos : 0 < (splitSlash rest).length := List.length_pos.mpr hne
        simp only [splitSlash, hc, if_true, List.length_cons]
        omega
      · have hr : '/' ∈ rest := by
          rcases List.mem_cons.mp h with h' | h'
          · exact absurd h'.symm hc
          · exact h'
        have hlen := ih hr
        unfold splitSlash
        simp only [hc, if_false]
        cases hsp : splitSlash rest with
        | nil => exact absurd hsp (splitSlash_ne_nil rest)
        | cons s ss =>
            rw [hsp] at hlen
            simp only [List.length_cons] at hlen ⊢
            omega

/-- `getLast?` skips a head when the tail is nonempty. -/
theorem getLast?_cons_ne_nil {α : Type} (a : α) (l : List α) (h : l ≠ []) :
    (a :: l).getLast? = l.getLast? := by
  cases l with
  | nil => exact absurd rfl h
  | cons b m => exact List.getLast?_cons_cons

/-- The last piece of a split is unaffected by everything before the last
slash. -/
theorem splitSlash_getLast?_append (xs ys : List Char) :
    (splitSlash (xs ++ '/' :: ys)).getLast? = (splitSlash ys).getLast? := by
  induction xs with
  | nil =>
      have hstep : splitSlash ('/' :: ys) = [] :: splitSlash ys := by
        simp [splitSlash]
      rw [List.nil_append, hstep, getLast?_cons_ne_nil _ _ (splitSlash_ne_nil ys)]
  | cons x xs ih =>
      by_cases hx : x = '/'
      · subst hx
        have hstep : splitSlash ('/' :: (xs ++ '/' :: ys)) =
            [] :: splitSlash (xs ++ '/' :: ys) := by
          simp [splitSlash]
        rw [List.cons_append, hstep,
          getLast?_cons_ne_nil _ _ (splitSlash_ne_nil _), ih]
      · have hmem : '/' ∈ xs ++ '/' :: ys := by simp
        have hlen := two_le_splitSlash_of_mem _ hmem
        rw [List.cons_append]
        cases hsp : splitSlash (xs ++ '/' :: ys) with
        | nil => exact absurd hsp (splitSlash_ne_nil _)
        | cons s ss =>
            have hss : ss ≠ [] := by
              rw [hsp] at hlen
              simp only [List.length_cons] at hlen
              intro hcon
              rw [hcon] at hlen
              simp at hlen
            have hstep : splitSlash (x :: (xs ++ '/' :: ys)) = (x :: s) :: ss := by
              unfold splitSlash
              simp only [hx, if_false, hsp]
            rw [hstep, getLast?_cons_ne_nil _ _ hss]
            have h2 := ih
            rw [hsp, getLast?_cons_ne_nil _ _ hss] at h2
            exact h2

/-- A list whose head is not a slash survives a slash `dropWhile`. -/
theorem dropWhile_slash_of_no_slash (l : List Char) (h : ∀ c ∈ l, c ≠ '/') :
    l.dropWhile (fun c => c == '/') = l := by
  cases l with
  | nil => rfl
  | cons c0 rest0 =>
      have : c0 ≠ '/' := h c0 (List.mem_cons_self _ _)
      simp [List.dropWhile_cons, this]

/-- Terminal-segment extraction ignores everything before the final
separator: for any prefix `pre`, the extracted short name of
`pre ++ "/" ++ seg` is `seg`, provided `seg` is nonempty, slash-free and
does not end in whitespace. -/
theorem extract_terminal (pre seg : String)
    (h1 : seg ≠ "")
    (h2 : ∀ c ∈ seg.data, c ≠ '/')
    (h3 : ∀ c, seg.data.getLast? = some c → c.isWhitespace = false) :
    extractShortNameFromDest (pre ++ "/" ++ seg) = seg := by
  have hLne : seg.data ≠ [] := by
    intro hcon
    apply h1
    cases seg with
    | mk d => rw [show d = [] from hcon]
  obtain ⟨L', cl, hL0⟩ := (List.eq_nil_or_concat seg.data).resolve_left hLne
  have hL : seg.data = L' ++ [cl] := by rw [hL0, List.concat_eq_append]
  have hcl_ws : cl.isWhitespace = false := h3 cl (by rw [hL]; simp)
  have hcl_slash : ((fun c => c == '/') cl) = false := by
    have : cl ≠ '/' := h2 cl (by rw [hL]; simp)
    simp [this]
  have hdata : (pre ++ "/" ++ seg).data = pre.data ++ '/' :: seg.data := by
    show (pre.data ++ ['/']) ++ seg.data = pre.data ++ '/' :: seg.data
    simp
  have hnorm : (normalizeDestPath (pre ++ "/" ++ seg)).data =
      stripBoth (fun c => c == '/')
        (stripBoth Char.isWhitespace (pre.data ++ '/' :: seg.data)) := by
    rw [← hdata]; rfl
  -- the whitespace strip leaves `'/' :: seg.data` intact
  have hws : stripBoth Char.isWhitespace (pre.data ++ '/' :: seg.data) =
      pre.data.dropWhile Char.isWhitespace ++ '/' :: seg.data := by
    unfold stripBoth
    rw [dropWhile_append_stop Char.isWhitespace pre.data seg.data '/' (by decide)]
    have hsplit : pre.data.dropWhile Char.isWhitespace ++ '/' :: seg.data =
        (pre.data.dropWhile Char.isWhitespace ++ '/' :: L') ++ [cl] := by
      rw [hL]; simp
    rw [hsplit, rstrip_concat_stop Char.isWhitespace _ _ hcl_ws]
  -- the slash strip leaves either `seg.data` or `D ++ '/' :: seg.data`
  have hseg_drop : seg.data.dropWhile (fun c => c == '/') = seg.data :=
    dropWhile_slash_of_no_slash seg.data h2
  have hrs : rstrip (fun c => c == '/') seg.data = seg.data := by
    rw [hL]
    exact rstrip_concat_stop (fun c => c == '/') L' cl hcl_slash
  have hfinal : (splitSlash (normalizeDestPath (pre ++ "/" ++ seg)).data).getLast? =
      some seg.data := by
    rw [hnorm, hws]
    unfold stripBoth
    rw [dropWhile_append_cases (fun c => c == '/')
      (pre.data.dropWhile Char.isWhitespace) ('/' :: seg.data)]
    by_cases hq : ((pre.data.dropWhile Char.isWhitespace).dropWhile
        (fun c => c == '/')).isEmpty = true
    · rw [if_pos hq]
      have hstep : ('/' :: seg.data).dropWhile (fun c => c == '/') = seg.data := by
        simp [List.dropWhile_cons, hseg_drop]
      rw [hstep, hrs, splitSlash_no_slash seg.data h2]
      rfl
    · rw [if_neg hq]
      have hsplit2 : (pre.data.dropWhile Char.isWhitespace).dropWhile (fun c => c == '/') ++
          '/' :: seg.data =
          (((pre.data.dropWhile Char.isWhitespace).dropWhile (fun c => c == '/') ++
            '/' :: L') ++ [cl]) := by
        rw [hL]; simp
      rw [hsplit2, rstrip_concat_stop (fun c => c == '/') _ _ hcl_slash, ← hsplit2,
        splitSlash_getLast?_append, splitSlash_no_slash seg.data h2]
      rfl
  unfold extractShortNameFromDest
  rw [hfinal]

/-- C8: reference resolution is terminal-segment-only: normalization is
exactly "strip surrounding whitespace, then strip surrounding slashes";
any two reference strings with the same extracted final segment resolve
identically against any index; the extracted segment of
`pre ++ "/" ++ seg` is `seg` whatever the intermediate path is; and hence
two references differing only in their intermediate segments resolve to
the same result — intermediate segments are never compared with the
target's ancestry. -/
theorem c8_terminal_segment_resolution (index : List (String × Elem))
    (r1 r2 pre1 pre2 seg : String)
    (hsame : extractShortNameFromDest r1 = extractShortNameFromDest r2)
    (h1 : seg ≠ "")
    (h2 : ∀ c ∈ seg.data, c ≠ '/')
    (h3 : ∀ c, seg.data.getLast? = some c → c.isWhitespace = false) :
    (∀ s, normalizeDestPath s = stripSlashes (pyStrip s)) ∧
    resolveRef index r1 = resolveRef index r2 ∧
    extractShortNameFromDest (pre1 ++ "/" ++ seg) = seg ∧
    resolveRef index (pre1 ++ "/" ++ seg) = resolveRef index (pre2 ++ "/" ++ seg) := by
  refine ⟨fun s => rfl, ?_, extract_terminal pre1 seg h1 h2 h3, ?_⟩
  · unfold resolveRef
    rw [hsame]
  · unfold resolveRef
    rw [extract_terminal pre1 seg h1 h2 h3, extract_terminal pre2 seg h1 h2 h3]

/-- Witness for C8 at concrete references: `/a/b/Cluster1` and
`/x/Cluster1` both resolve through the final segment `Cluster1`. -/
theorem c8_witness :
    extractShortNameFromDest ("/a/b" ++ "/" ++ "Cluster1") = "Cluster1" ∧
    resolveRef ([("Cluster1", Elem.node "CPU_Cluster" [] "" [])])
        ("/a/b" ++ "/" ++ "Cluster1") =
      resolveRef ([("Cluster1", Elem.node "CPU_Cluster" [] "" [])])
        ("/x" ++ "/" ++ "Cluster1") := by
  have h := c8_terminal_segment_resolution
    ([("Cluster1", Elem.node "CPU_Cluster" [] "" [])])
    "/a/b/Cluster1" "/x/Cluster1" "/a/b" "/x" "Cluster1"
    (by decide) (by decide) (by decide) (by decide)
  exact ⟨h.2.2.1, h.2.2.2⟩

/-- Test document family for the Rule 79 core-id range check: one cluster
`CL1` with `CoresPerCluster="4"` and one prebuilt-application mapping with
the given `CoreId`, whose parent `HW-SW-MAPPING` references the cluster. -/
def c5Doc (coreId : String) : Elem :=
  .node "DOC" [] "" [
    .node "ECUs" [] "" [
      .node "SoCs" [] "" [
        .node "CPU_Cluster" [] "" [
          .node "SHORT-NAME" [("name", "CL1")] "" [],
          .node "CortexA72" [("CoresPerCluster", "4")] "" []]]],
    .node "HW-SW-MAPPING" [("ClusterRef", "/E/S/CL1")] "" [
      .node "Core-PrebuiltApplication-Mapping"
        [("CoreId", coreId), ("PrebuiltApplicationRef", "/Apps/A")] "" []]]

/-- C5: the code checks only `core_id >= cores_per_cluster` and performs no
lower-bound check, contradicting its own docstring ("0-based and less than
CoresPerCluster") and the spec's interval `[0, cores_per_cluster)`:
`CoreId="-1"` parses to `-1`, the cluster reference resolves and declares
`CoresPerCluster=4`, yet Rule 79 emits no finding.  The boundary cases the
spec states do hold: `CoreId = 3` (`= cpc - 1`) passes and `CoreId = 4`
(`= cpc`) is reported. -/
theorem c5_coreid_lower_bound_missing :
    pythonInt "-1" = some (-1) ∧
    (lookupA (clusterIndex (c5Doc "-1")) "CL1").map coresPerClusterOf =
      some (some 4) ∧
    validateRule79 (c5Doc "-1") = [] ∧
    validateRule79 (c5Doc "3") = [] ∧
    validateRule79 (c5Doc "4") =
      [⟨79, "error", rule79RangeMsg 4 "CL1" 4, getpath (c5Doc "4") [1, 0], 0⟩] := by
  exact ⟨rfl, rfl, rfl, rfl, rfl⟩

/-- Skipping a non-Linux cluster contributes no Rule 76 frequency
finding. -/
theorem clusterFreqErrs_nonlinux (root : Elem) (q : Pos × Elem)
    (h : isLinuxCluster q.2 = false) : clusterFreqErrs root q = [] := by
  unfold clusterFreqErrs
  simp [h]

/-- A `flatMap` over pointwise-empty results is empty. -/
theorem flatMap_nil_of_all {α β : Type} (l : List α) (g : α → List β)
    (h : ∀ x ∈ l, g x = []) : l.flatMap g = [] := by
  induction l with
  | nil => rfl
  | cons x xs ih =>
      rw [List.flatMap_cons, h x (List.mem_cons_self _ _),
        ih (fun y hy => h y (List.mem_cons_of_mem _ hy)), List.nil_append]

/-- C7: cross-hierarchy frequency policy.  In a document whose CPU
clusters are all non-Linux except one, and where that Linux cluster has
exactly one `Frequency` node with a nonempty numeric value `v`, Rule 76
(HW) emits exactly one frequency-policy finding when `v ≠ 1000000000` and
no finding when `v = 1000000000`. -/
theorem c7_linux_frequency_policy (root : Elem) (A B : List (Pos × Elem))
    (pc f : Pos × Elem) (v : Int)
    (hclusters : rule76Clusters root = A ++ pc :: B)
    (hA : ∀ q ∈ A, isLinuxCluster q.2 = false)
    (hB : ∀ q ∈ B, isLinuxCluster q.2 = false)
    (hLin : isLinuxCluster pc.2 = true)
    (hfreq : (descWithPos pc).filter (fun q => q.2.tag = "Frequency") = [f])
    (hne : freqValueOf f.2 ≠ "")
    (hval : pythonInt (freqValueOf f.2) = some v) :
    validateRule76HwFrequency root =
      if v = 1000000000 then []
      else [⟨76, "error", rule76FreqMsg (clusterNameOf pc.2) v, getpath root f.1, 0⟩] := by
  unfold validateRule76HwFrequency
  rw [hclusters, List.flatMap_append, List.flatMap_cons]
  rw [flatMap_nil_of_all A _ (fun x hx => clusterFreqErrs_nonlinux root x (hA x hx)),
    flatMap_nil_of_all B _ (fun x hx => clusterFreqErrs_nonlinux root x (hB x hx))]
  rw [List.nil_append, List.append_nil]
  unfold clusterFreqErrs
  rw [hLin]
  simp only [Bool.not_true, Bool.false_eq_true, if_false, hfreq]
  simp only [List.isEmpty_cons, if_false]
  rw [List.flatMap_cons, List.flatMap_nil, List.append_nil]
  rw [if_neg hne, hval]
  by_cases hv : v = 1000000000
  · rw [if_pos hv]
    simp [hv]
  · rw [if_neg hv]
    simp [hv]

/-- Witness document for C7: a Nucleus cluster (ignored) and a Linux
cluster whose single frequency value is 999. -/
def c7Doc : Elem :=
  .node "DOC" [] "" [
    .node "CPU_Cluster" [] "" [
      .node "SHORT-NAME" [("name", "CL2")] "" [],
      .node "Operating-System" [] "" [.node "Nucleus_RTOS" [] "" []],
      .node "CortexA53" [] "" [.node "Frequency" [("value", "1000000000")] "" []]],
    .node "CPU_Cluster" [] "" [
      .node "SHORT-NAME" [("name", "CL1")] "" [],
      .node "Operating-System" [] "" [.node "Linux" [] "" []],
      .node "CortexA72" [] "" [.node "Frequency" [("value", "999")] "" []]]]

/-- Witness for C7: on `c7Doc` the rule emits exactly the one policy
finding for the Linux cluster's frequency node. -/
theorem c7_linux_frequency_policy_witness :
    validateRule76HwFrequency c7Doc =
      [⟨76, "error", rule76FreqMsg "CL1" 999,
        "/DOC/CPU_Cluster[2]/CortexA72/Frequency", 0⟩] := by
  have h := c7_linux_frequency_policy c7Doc
    [([0], Elem.node "CPU_Cluster" [] "" [
      Elem.node "SHORT-NAME" [("name", "CL2")] "" [],
      Elem.node "Operating-System" [] "" [Elem.node "Nucleus_RTOS" [] "" []],
      Elem.node "CortexA53" [] "" [Elem.node "Frequency" [("value", "1000000000")] "" []]])]
    []
    ([1], Elem.node "CPU_Cluster" [] "" [
      Elem.node "SHORT-NAME" [("name", "CL1")] "" [],
      Elem.node "Operating-System" [] "" [Elem.node "Linux" [] "" []],
      Elem.node "CortexA72" [] "" [Elem.node "Frequency" [("value", "999")] "" []]])
    ([1, 2, 0], Elem.node "Frequency" [("value", "999")] "" [])
    999 rfl
    (by intro q hq; rw [List.mem_singleton] at hq; rw [hq]; rfl)
    (by intro q hq; simp at hq)
    rfl rfl (by decide) rfl
  simpa using h

/-! Claim C6: existence failures versus direction mismatches. -/

/-- Two strings with a common prefix and different next characters are
different. -/
theorem string_append_ne_of_head (a s t : String) (c d : Char)
    (hs : s.data.head? = some c) (ht : t.data.head? = some d) (hcd : c ≠ d) :
    a ++ s ≠ a ++ t := by
  intro he
  have hd2 : s.data = t.data := by
    have := congrArg String.data he
    rw [String.data_append, String.data_append] at this
    exact List.append_cancel_left this
  rw [hd2, ht] at hs
  exact hcd (Option.some.inj hs).symm

/-- Counterexample document for C6: a READ operation of an SWC internal
behaviour whose reference terminal `W1` names a write-direction access
(and no read-direction access exists). -/
def c6Doc : Elem :=
  .node "DOC" [] "" [
    .node "SWC-INTERNAL-BEHAVIOR" [] "" [
      .node "OPERATIONS-SEQUENCE" [] "" [
        .node "OPERATION" [] "" [
          .node "READ" [] "" [.node "IREF" [("DEST", "/X/W1")] "" []]]]],
    .node "DATA-WRITE-ACCESS" [] "" [
      .node "VARIABLE-ACCESS" [] "" [.node "SHORT-NAME" [("name", "W1")] "" []]]]

/-- C6 counterexample: for SWC read/write operations (rules 22/23), a
reference whose terminal segment matches only the opposite direction is
reported with the same does-not-resolve message used for plain existence
failures — no distinct direction-mismatch finding exists in this check. -/
theorem c6_counterexample :
    validDataAccessNames c6Doc "WRITE" = ["W1"] ∧
    validDataAccessNames c6Doc "READ" = [] ∧
    lastSeg "/X/W1" = "W1" ∧
    validateDataAccessOperation c6Doc "READ" 22 =
      [⟨22, "error", dataAccessUnresolvedMsg "READ" "/X/W1",
        "/DOC/SWC-INTERNAL-BEHAVIOR/OPERATIONS-SEQUENCE/OPERATION/READ", 0⟩] := by
  exact ⟨rfl, rfl, rfl, rfl⟩

/-- C6 (amended): for HWIP operations (Rule 63) the claim holds: a WRITE
(resp. READ) whose terminal segment is a provide-port (resp. require-port)
passes; one that matches only the opposite direction yields the
direction-mismatch finding; one that matches neither yields the
non-existent-port finding; and for every HWIP name, port name and DEST the
mismatch message differs from the non-existent message.  For SWC
operations (rules 22/23) only the matching-direction existence check runs,
with a single does-not-resolve message (see the counterexample). -/
theorem c6_hwip_direction_vs_existence (hw xp d : String)
    (pports rports : List String) :
    (pports.contains (lastSeg d) = true →
      rule63WriteCheck hw pports rports xp d = []) ∧
    (pports.contains (lastSeg d) = false → rports.contains (lastSeg d) = true →
      rule63WriteCheck hw pports rports xp d =
        [⟨63, "error", rule63WriteMismatchMsg hw (lastSeg d), xp, 0⟩]) ∧
    (pports.contains (lastSeg d) = false → rports.contains (lastSeg d) = false →
      rule63WriteCheck hw pports rports xp d =
        [⟨63, "error", rule63WriteMissingMsg hw (lastSeg d) d, xp, 0⟩]) ∧
    (rports.contains (lastSeg d) = true →
      rule63ReadCheck hw pports rports xp d = []) ∧
    (rports.contains (lastSeg d) = false → pports.contains (lastSeg d) = true →
      rule63ReadCheck hw pports rports xp d =
        [⟨63, "error", rule63ReadMismatchMsg hw (lastSeg d), xp, 0⟩]) ∧
    (rports.contains (lastSeg d) = false → pports.contains (lastSeg d) = false →
      rule63ReadCheck hw pports rports xp d =
        [⟨63, "error", rule63ReadMissingMsg hw (lastSeg d) d, xp, 0⟩]) ∧
    (∀ hw2 pn ds, rule63WriteMismatchMsg hw2 pn ≠ rule63WriteMissingMsg hw2 pn ds) ∧
    (∀ hw2 pn ds, rule63ReadMismatchMsg hw2 pn ≠ rule63ReadMissingMsg hw2 pn ds) := by
  refine ⟨?_, ?_, ?_, ?_, ?_, ?_, ?_, ?_⟩
  · intro h1
    have h1m : lastSeg d ∈ pports := by simpa using h1
    simp [rule63WriteCheck, h1m]
  · intro h1 h2
    have h1m : lastSeg d ∉ pports := by simpa using h1
    have h2m : lastSeg d ∈ rports := by simpa using h2
    simp [rule63WriteCheck, h1m, h2m]
  · intro h1 h2
    have h1m : lastSeg d ∉ pports := by simpa using h1
    have h2m : lastSeg d ∉ rports := by simpa using h2
    simp [rule63WriteCheck, h1m, h2m]
  · intro h1
    have h1m : lastSeg d ∈ rports := by simpa using h1
    simp [rule63ReadCheck, h1m]
  · intro h1 h2
    have h1m : lastSeg d ∉ rports := by simpa using h1
    have h2m : lastSeg d ∈ pports := by simpa using h2
    simp [rule63ReadCheck, h1m, h2m]
  · intro h1 h2
    have h1m : lastSeg d ∉ rports := by simpa using h1
    have h2m : lastSeg d ∉ pports := by simpa using h2
    simp [rule63ReadCheck, h1m, h2m]
  · intro hw2 pn ds
    exact string_append_ne_of_head _ _ _ 'p' 'r' rfl rfl (by decide)
  · intro hw2 pn ds
    exact string_append_ne_of_head _ _ _ 'p' 'r' rfl rfl (by decide)

/-- Witness for C6 at concrete inputs: a WRITE pointing at the require
port `RP` gets the mismatch finding, a READ pointing at the unknown `ZZ`
gets the non-existent finding. -/
theorem c6_hwip_direction_witness :
    rule63WriteCheck "H1" ["PP"] ["RP"] "/x" "/H1/RP" =
      [⟨63, "error", rule63WriteMismatchMsg "H1" "RP", "/x", 0⟩] ∧
    rule63ReadCheck "H1" ["PP"] ["RP"] "/x" "/H1/ZZ" =
      [⟨63, "error", rule63ReadMissingMsg "H1" "ZZ" "/H1/ZZ", "/x", 0⟩] := by
  constructor
  · exact (c6_hwip_direction_vs_existence "H1" "/x" "/H1/RP" ["PP"] ["RP"]).2.1
      (by decide) (by decide)
  · exact (c6_hwip_direction_vs_existence "H1" "/x" "/H1/ZZ" ["PP"] ["RP"]).2.2.2.2.2.1
      (by decide) (by decide)

/-! Claim C3: Rule 5 cardinality.  Helper lemmas about the Python-dict key
invariant. -/

/-- `insertReplace` keeps the key list unless the key is fresh, in which
case the key is appended. -/
theorem insertReplace_keys {α : Type} (m : List (String × α)) (k : String) (v : α) :
    (insertReplace m k v).map Prod.fst =
      if m.any (fun q => q.1 = k) then m.map Prod.fst
      else m.map Prod.fst ++ [k] := by
  unfold insertReplace
  by_cases hk : m.any (fun q => q.1 = k) = true
  · rw [if_pos hk, if_pos hk, List.map_map]
    apply List.map_congr_left
    intro q _
    by_cases hq : q.1 = k
    · simp [hq]
    · simp [hq]
  · rw [if_neg hk, if_neg hk, List.map_append]
    rfl

/-- `insertReplace` preserves distinctness of keys. -/
theorem insertReplace_keys_nodup {α : Type} (m : List (String × α)) (k : String)
    (v : α) (h : (m.map Prod.fst).Nodup) :
    ((insertReplace m k v).map Prod.fst).Nodup := by
  rw [insertReplace_keys]
  by_cases hk : m.any (fun q => q.1 = k) = true
  · rw [if_pos hk]
    exact h
  · rw [if_neg hk]
    have hnot : k ∉ m.map Prod.fst := by
      intro hmem
      apply hk
      rw [List.any_eq_true]
      obtain ⟨q, hq, hq2⟩ := List.mem_map.mp hmem
      exact ⟨q, hq, by simp [hq2]⟩
    rw [List.nodup_append]
    refine ⟨h, List.nodup_singleton k, ?_⟩
    intro x hx hx2
    rw [List.mem_singleton] at hx2
    exact hnot (hx2 ▸ hx)

/-- Each collection step preserves distinctness of port-path keys. -/
theorem rule5PortsStep_keys_nodup (root : Elem) (m : List (String × (Pos × Elem)))
    (pe : Pos × Elem) (h : (m.map Prod.fst).Nodup) :
    ((rule5PortsStep root m pe).map Prod.fst).Nodup := by
  unfold rule5PortsStep
  split
  · exact h
  · split
    · exact h
    · split
      · exact h
      · exact insertReplace_keys_nodup m _ pe h

/-- The collected Rule 5 port paths are pairwise distinct. -/
theorem rule5Ports_keys_nodup (root : Elem) :
    ((rule5Ports root).map Prod.fst).Nodup := by
  unfold rule5Ports
  generalize findAll root "P-PORT-PROTOTYPE" = l
  have hgen : ∀ (m : List (String × (Pos × Elem))), (m.map Prod.fst).Nodup →
      ((l.foldl (rule5PortsStep root) m).map Prod.fst).Nodup := by
    induction l with
    | nil => intro m hm; exact hm
    | cons pe l ih =>
        intro m hm
        exact ih _ (rule5PortsStep_keys_nodup root m pe hm)
  exact hgen [] (by simp)

/-- Bumping a count never changes the key list. -/
theorem rule5Bump_keys (m : List (String × ((Pos × Elem) × Nat))) (r : String) :
    (rule5Bump m r).map Prod.fst = m.map Prod.fst := by
  unfold rule5Bump
  by_cases hk : m.any (fun q => q.1 = r) = true
  · rw [if_pos hk, List.map_map]
    apply List.map_congr_left
    intro q _
    by_cases hq : q.1 = r
    · simp [hq]
    · simp [hq]
  · rw [if_neg hk]

/-- The Rule 5 count entries keep the pairwise-distinct keys of the
collection phase. -/
theorem rule5Counts_keys_nodup (root : Elem) :
    ((rule5Counts root).map Prod.fst).Nodup := by
  unfold rule5Counts
  generalize rule5Refs root = refs
  have hinit : (((rule5Ports root).map (fun q => (q.1, (q.2, 0)))).map Prod.fst).Nodup := by
    rw [List.map_map]
    exact rule5Ports_keys_nodup root
  generalize hm : (rule5Ports root).map (fun q => (q.1, (q.2, 0))) = m at hinit
  clear hm
  induction refs generalizing m with
  | nil => exact hinit
  | cons r refs ih =>
      rw [List.foldl_cons]
      exact ih (rule5Bump m r) (by rw [rule5Bump_keys]; exact hinit)

/-- In a list with pairwise-distinct keys, a key determines its value. -/
theorem nodup_keys_value_eq {α : Type} (l : List (String × α))
    (h : (l.map Prod.fst).Nodup) (k : String) (a b : α)
    (ha : (k, a) ∈ l) (hb : (k, b) ∈ l) : a = b := by
  induction l with
  | nil => simp at ha
  | cons q l ih =>
      rw [List.map_cons, List.nodup_cons] at h
      rcases List.mem_cons.mp ha with ha1 | ha1 <;>
        rcases List.mem_cons.mp hb with hb1 | hb1
      · exact congrArg Prod.snd (ha1.trans hb1.symm)
      · exfalso
        apply h.1
        have hk : q.1 = k := congrArg Prod.fst ha1.symm
        rw [hk]
        exact List.mem_map.mpr ⟨(k, b), hb1, rfl⟩
      · exfalso
        apply h.1
        have hk : q.1 = k := congrArg Prod.fst hb1.symm
        rw [hk]
        exact List.mem_map.mpr ⟨(k, a), ha1, rfl⟩
      · exact ih h.2 ha1 hb1

/-- The Rule 5 findings are exactly the rendered entries whose count is
not one. -/
theorem validateRule5_characterization (root : Elem) :
    validateRule5 root =
      ((rule5Counts root).filter (fun q => decide (q.2.2 ≠ 1))).map (rule5Render root) := by
  unfold validateRule5
  generalize rule5Counts root = l
  induction l with
  | nil => rfl
  | cons q l ih =>
      rw [List.flatMap_cons, List.filter_cons]
      by_cases h1 : q.2.2 = 1
      · have hcond : (decide (q.2.2 ≠ 1)) = false := by simp [h1]
        have hbranch : (if q.2.2 = 0 then [rule5Render root q]
            else if 1 < q.2.2 then [rule5Render root q] else []) = [] := by
          rw [if_neg (by omega), if_neg (by omega)]
        rw [hbranch, List.nil_append, ih]
        simp only [hcond, Bool.false_eq_true, if_false]
      · have hcond : (decide (q.2.2 ≠ 1)) = true := by simp [h1]
        have hbranch : (if q.2.2 = 0 then [rule5Render root q]
            else if 1 < q.2.2 then [rule5Render root q] else []) = [rule5Render root q] := by
          by_cases h0 : q.2.2 = 0
          · rw [if_pos h0]
          · rw [if_neg h0, if_pos (by omega)]
        rw [hbranch, ih]
        simp only [hcond, if_true, List.map_cons]
        rfl

/-- Strings built from equal-length distinct fixed tails differ whatever
the leading parts are. -/
theorem append_tail_ne (x y t u : String)
    (hl : t.data.length = u.data.length) (h : t.data ≠ u.data) :
    x ++ t ≠ y ++ u := by
  intro he
  have hd := congrArg String.data he
  rw [String.data_append, String.data_append] at hd
  have hlen := congrArg List.length hd
  rw [List.length_append, List.length_append, hl] at hlen
  have hx : x.data.length = y.data.length := by omega
  exact h (List.append_inj_right hd hx)

/-- C3 (amended): Rule 5 indexes exactly the named provider ports lying
below a named `APPLICATION-SW-COMPONENT-TYPE`, keyed by `/SWC/Port`.  For
every indexed entry with reference count `c`: the rule's findings are
exactly the rendered entries with `c ≠ 1`; `c = 0` yields the ZERO-message
finding and `c > 1` the count-message finding for that port; when `c = 1`
every entry carrying this port path has count one (the keys are pairwise
distinct), so no finding is emitted for it; and the zero message differs
from every count message. -/
theorem c3_rule5_cardinality (root : Elem) (path : String) (pe : Pos × Elem)
    (c : Nat) (hmem : (path, (pe, c)) ∈ rule5Counts root) :
    validateRule5 root =
      ((rule5Counts root).filter (fun q => decide (q.2.2 ≠ 1))).map (rule5Render root) ∧
    (c = 0 → rule5Render root (path, (pe, c)) ∈ validateRule5 root ∧
      (rule5Render root (path, (pe, c))).message =
        rule5ZeroMsg ((firstShortName pe.2).getD "unknown") path) ∧
    (1 < c → rule5Render root (path, (pe, c)) ∈ validateRule5 root ∧
      (rule5Render root (path, (pe, c))).message =
        rule5ManyMsg ((firstShortName pe.2).getD "unknown") path c) ∧
    (c = 1 → ∀ q ∈ rule5Counts root, q.1 = path → q.2.2 = 1) ∧
    (∀ n p k, rule5ZeroMsg n p ≠ rule5ManyMsg n p k) := by
  refine ⟨validateRule5_characterization root, ?_, ?_, ?_, ?_⟩
  · intro h0
    constructor
    · rw [validateRule5_characterization root]
      exact List.mem_map.mpr ⟨(path, (pe, c)),
        List.mem_filter.mpr ⟨hmem, by simp [h0]⟩, rfl⟩
    · simp [rule5Render, h0]
  · intro h1
    constructor
    · rw [validateRule5_characterization root]
      exact List.mem_map.mpr ⟨(path, (pe, c)),
        List.mem_filter.mpr ⟨hmem, by simp; omega⟩, rfl⟩
    · have h0 : c ≠ 0 := by omega
      simp [rule5Render, h0]
  · intro h1 q hq hqk
    have : q = (q.1, q.2) := rfl
    have hval : q.2 = (pe, c) := by
      apply nodup_keys_value_eq (rule5Counts root) (rule5Counts_keys_nodup root) path
      · rw [← hqk]
        exact (this ▸ hq)
      · exact hmem
    rw [hval, h1]
  · intro n p k
    unfold rule5ZeroMsg rule5ManyMsg
    exact append_tail_ne _ _ _ _ (by decide) (by decide)

/-- Counterexample document for C3: one named provider port with no
`APPLICATION-SW-COMPONENT-TYPE` ancestor and zero write accesses. -/
def c3Doc : Elem :=
  .node "DOC" [] "" [
    .node "P-PORT-PROTOTYPE" [] "" [.node "SHORT-NAME" [("name", "P1")] "" []]]

/-- C3 counterexample: the document holds exactly one named
`P-PORT-PROTOTYPE` and no `DATA-WRITE-ACCESS` reference at all, yet Rule 5
emits no finding — ports outside a named software component are never
indexed, so "referenced by zero write accesses" does not imply a
finding for every named provider port. -/
theorem c3_counterexample :
    (findAll c3Doc "P-PORT-PROTOTYPE").map (fun pe => firstShortName pe.2) =
      [some "P1"] ∧
    rule5Refs c3Doc = [] ∧
    rule5Counts c3Doc = [] ∧
    validateRule5 c3Doc = [] := by
  exact ⟨rfl, rfl, rfl, rfl⟩

/-- Witness document for C3: a component `S1` with ports `P1` (two write
accesses) and `P2` (exactly one). -/
def c3WitDoc : Elem :=
  .node "DOC" [] "" [
    .node "APPLICATION-SW-COMPONENT-TYPE" [] "" [
      .node "SHORT-NAME" [("name", "S1")] "" [],
      .node "PORTS" [] "" [
        .node "P-PORT-PROTOTYPE" [] "" [.node "SHORT-NAME" [("name", "P1")] "" []],
        .node "P-PORT-PROTOTYPE" [] "" [.node "SHORT-NAME" [("name", "P2")] "" []]]],
    .node "DATA-WRITE-ACCESS" [] "" [
      .node "VARIABLE-ACCESS" [] "" [
        .node "PORT-PROTOTYPE-REF" [("DEST", "/S1/P1")] "" [],
        .node "PORT-PROTOTYPE-REF" [("DEST", "/S1/P1")] "" [],
        .node "PORT-PROTOTYPE-REF" [("DEST", "/S1/P2")] "" []]]]

/-- Witness for C3: on `c3WitDoc`, `P2` has count one and receives no
finding, while `P1` has count two and its rendered finding is in the
output with the count message. -/
theorem c3_rule5_cardinality_witness :
    (∀ q ∈ rule5Counts c3WitDoc, q.1 = "/S1/P2" → q.2.2 = 1) ∧
    rule5Render c3WitDoc
        ("/S1/P1", (([0, 1, 0],
          Elem.node "P-PORT-PROTOTYPE" [] ""
            [Elem.node "SHORT-NAME" [("name", "P1")] "" []]), 2)) ∈
      validateRule5 c3WitDoc := by
  have hc : rule5Counts c3WitDoc =
      [("/S1/P1", (([0, 1, 0], Elem.node "P-PORT-PROTOTYPE" [] ""
          [Elem.node "SHORT-NAME" [("name", "P1")] "" []]), 2)),
       ("/S1/P2", (([0, 1, 1], Elem.node "P-PORT-PROTOTYPE" [] ""
          [Elem.node "SHORT-NAME" [("name", "P2")] "" []]), 1))] := rfl
  constructor
  · exact (c3_rule5_cardinality c3WitDoc "/S1/P2" _ 1
      (by rw [hc]; exact List.mem_cons_of_mem _ (List.mem_singleton.mpr rfl))).2.2.2.1 rfl
  · exact ((c3_rule5_cardinality c3WitDoc "/S1/P1" _ 2
      (by rw [hc]; exact List.mem_cons_self _ _)).2.2.1 (by omega)).1

/-! Claim C4: Rule 6 global uniqueness of runnable names. -/

/-- A block of pairwise-fresh names produces no Rule 6 findings. -/
theorem rule6Loop_fresh (items : List (String × String)) :
    ∀ seen : List (String × String),
      (∀ q ∈ items, lookupA seen q.2 = none) →
      (items.map Prod.snd).Nodup →
      rule6Loop seen items = [] := by
  induction items with
  | nil => intro seen _ _; rfl
  | cons q rest ih =>
      intro seen hfresh hnodup
      obtain ⟨xp, n⟩ := q
      have h1 : lookupA seen n = none := hfresh (xp, n) (List.mem_cons_self _ _)
      rw [List.map_cons, List.nodup_cons] at hnodup
      simp only [rule6Loop, h1]
      apply ih ((n, xp) :: seen)
      · intro q2 hq2
        have hne : q2.2 ≠ n := by
          intro hcon
          exact hnodup.1 (hcon ▸ List.mem_map.mpr ⟨q2, hq2, rfl⟩)
        unfold lookupA
        rw [if_neg hne]
        exact hfresh q2 (List.mem_cons_of_mem _ hq2)
      · exact hnodup.2

/-- Processing the block between the two duplicates, then the duplicate,
then the tail: exactly one duplicate finding, carrying the first-seen
path stored in the dict. -/
theorem rule6Loop_mid (B : List (String × String)) :
    ∀ (C : List (String × String)) (x1 x2 n : String)
      (seen : List (String × String)),
      lookupA seen n = some x1 →
      n ∉ (B ++ C).map Prod.snd →
      ((B ++ C).map Prod.snd).Nodup →
      (∀ k ∈ (B ++ C).map Prod.snd, lookupA seen k = none) →
      rule6Loop seen (B ++ (x2, n) :: C) = [rule6Err n x2 x1] := by
  induction B with
  | nil =>
      intro C x1 x2 n seen hfound hnot hnodup hfresh
      rw [List.nil_append]
      simp only [rule6Loop, hfound]
      rw [rule6Loop_fresh C seen
        (fun q hq => hfresh q.2
          (by rw [List.nil_append]; exact List.mem_map.mpr ⟨q, hq, rfl⟩))
        (by simpa using hnodup)]
  | cons b B ih =>
      intro C x1 x2 n seen hfound hnot hnodup hfresh
      obtain ⟨xpb, m⟩ := b
      rw [List.cons_append]
      have hm : lookupA seen m = none := hfresh m (by simp)
      simp only [rule6Loop, hm]
      have hnm : n ≠ m := by
        intro hcon
        exact hnot (by simp [hcon])
      rw [List.cons_append, List.map_cons, List.nodup_cons] at hnodup
      apply ih C x1 x2 n ((m, xpb) :: seen)
      · unfold lookupA
        rw [if_neg hnm]
        exact hfound
      · intro hcon
        exact hnot (by simp at hcon ⊢; exact Or.inr hcon)
      · exact hnodup.2
      · intro k hk
        have hkm : k ≠ m := by
          intro hcon
          exact hnodup.1 (hcon ▸ hk)
        unfold lookupA
        rw [if_neg hkm]
        exact hfresh k (by simp at hk ⊢; exact Or.inr hk)

/-- The full Rule 6 loop over a list with exactly one duplicated name. -/
theorem rule6Loop_split (A : List (String × String)) :
    ∀ (B C : List (String × String)) (x1 x2 n : String)
      (seen : List (String × String)),
      n ∉ ((A ++ B ++ C).map Prod.snd) →
      ((A ++ B ++ C).map Prod.snd).Nodup →
      (∀ k ∈ n :: (A ++ B ++ C).map Prod.snd, lookupA seen k = none) →
      rule6Loop seen (A ++ (x1, n) :: (B ++ (x2, n) :: C)) = [rule6Err n x2 x1] := by
  induction A with
  | nil =>
      intro B C x1 x2 n seen hnot hnodup hfresh
      rw [List.nil_append]
      have hn : lookupA seen n = none := hfresh n (List.mem_cons_self _ _)
      simp only [rule6Loop, hn]
      apply rule6Loop_mid B C x1 x2 n ((n, x1) :: seen)
      · unfold lookupA
        rw [if_pos rfl]
      · simpa using hnot
      · simpa using hnodup
      · intro k hk
        have hkn : k ≠ n := by
          intro hcon
          apply hnot
          rw [← hcon]
          simpa using hk
        unfold lookupA
        rw [if_neg hkn]
        exact hfresh k (List.mem_cons_of_mem _ (by simpa using hk))
  | cons a A ih =>
      intro B C x1 x2 n seen hnot hnodup hfresh
      obtain ⟨xpa, m⟩ := a
      rw [List.cons_append]
      have hm : lookupA seen m = none := hfresh m (by simp)
      simp only [rule6Loop, hm]
      rw [List.append_assoc, List.cons_append, List.map_cons, List.nodup_cons,
        ← List.append_assoc] at hnodup
      have hnm : n ≠ m := by
        intro hcon
        exact hnot (by simp [hcon])
      apply ih B C x1 x2 n ((m, xpa) :: seen)
      · intro hcon
        apply hnot
        rw [List.append_assoc, List.cons_append, List.map_cons]
        rw [List.append_assoc] at hcon
        exact List.mem_cons_of_mem _ hcon
      · exact hnodup.2
      · intro k hk
        have hkm : k ≠ m := by
          intro hcon
          rcases List.mem_cons.mp hk with hk1 | hk1
          · exact hnm (hk1 ▸ hcon ▸ rfl)
          · apply hnodup.1
            rw [← hcon, List.append_assoc]
            rw [List.append_assoc] at hk1
            exact hk1
        unfold lookupA
        rw [if_neg hkm]
        apply hfresh
        rcases List.mem_cons.mp hk with hk1 | hk1
        · exact hk1 ▸ List.mem_cons_self _ _
        · refine List.mem_cons_of_mem _ ?_
          rw [List.append_assoc, List.cons_append, List.map_cons]
          rw [List.append_assoc] at hk1
          exact List.mem_cons_of_mem _ hk1

/-- C4: when exactly two named `RUNNABLE-ENTITY` nodes share a name `n`
(in document order: first at path `x1`, second at path `x2`) and every
other runnable name is distinct, Rule 6 emits exactly one duplicate
finding; it is located at the later occurrence `x2` and its message is the
fixed duplicate text followed by the first occurrence's path `x1`. -/
theorem c4_duplicate_runnable_names (root : Elem)
    (A B C : List (String × String)) (x1 x2 n : String)
    (hsplit : namedEntities root "RUNNABLE-ENTITY" =
      A ++ (x1, n) :: (B ++ (x2, n) :: C))
    (hother : ∀ q ∈ A ++ B ++ C, q.2 ≠ n)
    (hnodup : ((A ++ B ++ C).map Prod.snd).Nodup) :
    validateRule6 root = [rule6Err n x2 x1] ∧
    (rule6Err n x2 x1).xpath = x2 ∧
    (rule6Err n x2 x1).message = rule6DupMsgPre n ++ x1 := by
  refine ⟨?_, rfl, rfl⟩
  unfold validateRule6
  rw [hsplit]
  apply rule6Loop_split A B C x1 x2 n []
  · intro hcon
    obtain ⟨q, hq, hq2⟩ := List.mem_map.mp hcon
    exact hother q hq hq2
  · exact hnodup
  · intro k _
    rfl

/-- Witness document for C4: runnables `Read_Run_0`, `Other`,
`Read_Run_0` in document order. -/
def c4Doc : Elem :=
  .node "DOC" [] "" [
    .node "RUNNABLE-ENTITY" [] "" [.node "SHORT-NAME" [("name", "Read_Run_0")] "" []],
    .node "RUNNABLE-ENTITY" [] "" [.node "SHORT-NAME" [("name", "Other")] "" []],
    .node "RUNNABLE-ENTITY" [] "" [.node "SHORT-NAME" [("name", "Read_Run_0")] "" []]]

/-- Witness for C4: on `c4Doc`, Rule 6 emits exactly one finding, located
at the third runnable and naming the first runnable's path. -/
theorem c4_duplicate_runnable_names_witness :
    validateRule6 c4Doc =
      [rule6Err "Read_Run_0" "/DOC/RUNNABLE-ENTITY[3]" "/DOC/RUNNABLE-ENTITY[1]"] := by
  exact (c4_duplicate_runnable_names c4Doc []
    [("/DOC/RUNNABLE-ENTITY[2]", "Other")] []
    "/DOC/RUNNABLE-ENTITY[1]" "/DOC/RUNNABLE-ENTITY[3]" "Read_Run_0"
    rfl (by decide) (by decide)).1

end AEV
